import Mathlib

set_option maxRecDepth 8000

/-!
Verification of the nnet3 computation analyzer (`nnet3/nnet-analyze.cc`).

The C++ code is shallowly embedded: `int32` indices become `Int` where the
`-1` sentinel can occur (command arguments, row-pair tables) and `Nat` for
sizes, offsets and derived variable indices; fatal errors (`KALDI_ERR`)
become `Except CheckErr Unit`; `KALDI_ASSERT` preconditions are noted in
comments and appear as hypotheses of the theorems.
-/

/-- Models `std::unique` on a sorted vector: drop each element equal to its
successor, keeping one representative per run. -/
def uniqueAdjacent {α : Type} [DecidableEq α] : List α → List α
  | [] => []
  | [a] => [a]
  | a :: b :: rest =>
    if a = b then uniqueAdjacent (b :: rest) else a :: uniqueAdjacent (b :: rest)

/-- Models kaldi `SortAndUniq`: `std::sort` followed by `std::unique`/erase,
i.e. the sorted list of the distinct elements of the input. -/
def sortAndUniq {α : Type} [LinearOrder α] (l : List α) : List α :=
  uniqueAdjacent (List.insertionSort (· ≤ ·) l)

theorem mem_uniqueAdjacent {α : Type} [DecidableEq α] (l : List α) (x : α) :
    x ∈ uniqueAdjacent l ↔ x ∈ l := by
  induction l with
  | nil => simp [uniqueAdjacent]
  | cons a rest ih =>
    cases rest with
    | nil => simp [uniqueAdjacent]
    | cons b rest2 =>
      by_cases hab : a = b
      · subst hab
        rw [uniqueAdjacent, if_pos rfl, ih]
        simp
      · rw [uniqueAdjacent, if_neg hab]
        simp only [List.mem_cons] at ih ⊢
        rw [ih]

theorem uniqueAdjacent_sorted_lt {α : Type} [LinearOrder α] (l : List α)
    (hs : l.Sorted (· ≤ ·)) : (uniqueAdjacent l).Sorted (· < ·) := by
  induction l with
  | nil => simp [uniqueAdjacent]
  | cons a rest ih =>
    cases rest with
    | nil => simp [uniqueAdjacent]
    | cons b rest2 =>
      have hab : a ≤ b := (List.sorted_cons.mp hs).1 b (List.mem_cons_self b rest2)
      have hrest : (b :: rest2).Sorted (· ≤ ·) := (List.sorted_cons.mp hs).2
      by_cases heq : a = b
      · rw [uniqueAdjacent, if_pos heq]
        exact ih hrest
      · rw [uniqueAdjacent, if_neg heq]
        rw [List.sorted_cons]
        refine ⟨?_, ih hrest⟩
        intro x hx
        have hxmem : x ∈ b :: rest2 := (mem_uniqueAdjacent _ _).mp hx
        have hbx : b ≤ x := by
          rcases List.mem_cons.mp hxmem with rfl | hx2
          · exact le_refl x
          · exact (List.sorted_cons.mp hrest).1 x hx2
        exact lt_of_lt_of_le (lt_of_le_of_ne hab heq) hbx

theorem sortAndUniq_sorted_lt {α : Type} [LinearOrder α] (l : List α) :
    (sortAndUniq l).Sorted (· < ·) :=
  uniqueAdjacent_sorted_lt _ (List.sorted_insertionSort _ l)

theorem mem_sortAndUniq {α : Type} [LinearOrder α] (l : List α) (x : α) :
    x ∈ sortAndUniq l ↔ x ∈ l := by
  rw [sortAndUniq, mem_uniqueAdjacent]
  exact (List.perm_insertionSort (· ≤ ·) l).mem_iff

theorem sortAndUniq_nodup {α : Type} [LinearOrder α] (l : List α) :
    (sortAndUniq l).Nodup :=
  (sortAndUniq_sorted_lt l).nodup

deriving instance DecidableEq for Except

/-- In-place update of one list element, used to model writes through
`operator[]` on a C++ `std::vector`. -/
def modifyAt {α : Type} : List α → Nat → (α → α) → List α
  | [], _, _ => []
  | x :: rest, 0, f => f x :: rest
  | x :: rest, n + 1, f => x :: modifyAt rest n f

/-- Runs a check on every element in order, aborting at the first error:
this models a C++ loop whose body can raise `KALDI_ERR`. -/
def checkAll {α ε : Type} (f : α → Except ε Unit) : List α → Except ε Unit
  | [] => .ok ()
  | x :: rest =>
    match f x with
    | .error e => .error e
    | .ok _ => checkAll f rest

theorem checkAll_ok_iff {α ε : Type} (f : α → Except ε Unit) (l : List α) :
    checkAll f l = .ok () ↔ ∀ x ∈ l, f x = .ok () := by
  induction l with
  | nil => simp [checkAll]
  | cons x rest ih =>
    cases hfx : f x with
    | error e =>
      simp only [checkAll, hfx]
      constructor
      · intro h; cases h
      · intro h
        have hx := h x (List.mem_cons_self x rest)
        rw [hfx] at hx
        cases hx
    | ok u =>
      cases u
      simp only [checkAll, hfx]
      rw [ih]
      constructor
      · intro h y hy
        rcases List.mem_cons.mp hy with rfl | hy
        · exact hfx
        · exact h y hy
      · intro h y hy
        exact h y (List.mem_cons_of_mem x hy)

theorem checkAll_error {α ε : Type} (f : α → Except ε Unit) (l : List α)
    (e : ε) (h : checkAll f l = .error e) : ∃ x ∈ l, f x = .error e := by
  induction l with
  | nil => simp [checkAll] at h
  | cons x rest ih =>
    cases hfx : f x with
    | error e' =>
      simp only [checkAll, hfx] at h
      cases h
      exact ⟨x, List.mem_cons_self x rest, hfx⟩
    | ok u =>
      cases u
      simp only [checkAll, hfx] at h
      obtain ⟨y, hy, hfy⟩ := ih h
      exact ⟨y, List.mem_cons_of_mem x hy, hfy⟩

/-- Models `std::lower_bound` on a vector of `Nat`: index of the first
element that is not less than `x` (the list length when none is). -/
def lowerBoundIdx : List Nat → Nat → Nat
  | [], _ => 0
  | a :: rest, x => if a < x then lowerBoundIdx rest x + 1 else 0

theorem lowerBoundIdx_hit (l : List Nat) (x : Nat)
    (hs : l.Sorted (· < ·)) (hx : x ∈ l) :
    lowerBoundIdx l x < l.length ∧ l.getD (lowerBoundIdx l x) 0 = x := by
  induction l with
  | nil => simp at hx
  | cons a rest ih =>
    by_cases hax : a < x
    · have hxr : x ∈ rest := by
        rcases List.mem_cons.mp hx with hx | hx
        · omega
        · exact hx
      have hsr : rest.Sorted (· < ·) := (List.sorted_cons.mp hs).2
      obtain ⟨h1, h2⟩ := ih hsr hxr
      refine ⟨?_, ?_⟩
      · simp only [lowerBoundIdx, if_pos hax, List.length_cons]
        omega
      · simpa [lowerBoundIdx, if_pos hax] using h2
    · have hxa : x = a := by
        rcases List.mem_cons.mp hx with hx | hx
        · exact hx
        · have := (List.sorted_cons.mp hs).1 x hx
          omega
      subst hxa
      simp [lowerBoundIdx, if_neg hax]

/-- Lexicographic comparison on pairs of `Int`, as `std::pair<int32,int32>`'s
`operator<=` used (via `operator<`) by `std::sort` in the duplicate check. -/
def pairLe (p q : Int × Int) : Prop :=
  p.1 < q.1 ∨ (p.1 = q.1 ∧ p.2 ≤ q.2)

instance : DecidableRel pairLe := fun p q => by
  unfold pairLe; infer_instance

instance : IsTotal (Int × Int) pairLe where
  total p q := by
    unfold pairLe
    rcases lt_trichotomy p.1 q.1 with h | h | h
    · exact Or.inl (Or.inl h)
    · rcases le_total p.2 q.2 with h2 | h2
      · exact Or.inl (Or.inr ⟨h, h2⟩)
      · exact Or.inr (Or.inr ⟨h.symm, h2⟩)
    · exact Or.inr (Or.inl h)

instance : IsTrans (Int × Int) pairLe where
  trans p q r hpq hqr := by
    unfold pairLe at *
    rcases hpq with h | ⟨h, h2⟩ <;> rcases hqr with h' | ⟨h', h2'⟩
    · exact Or.inl (h.trans h')
    · exact Or.inl (h'.symm ▸ h)
    · exact Or.inl (h ▸ h')
    · exact Or.inr ⟨h.trans h', h2.trans h2'⟩

theorem pairLe_antisymm {p q : Int × Int} (h1 : pairLe p q) (h2 : pairLe q p) :
    p = q := by
  unfold pairLe at h1 h2
  have hfst : p.1 = q.1 := by omega
  have hsnd : p.2 = q.2 := by
    rcases h1 with h | ⟨_, h⟩ <;> rcases h2 with h' | ⟨_, h'⟩ <;> omega
  exact Prod.ext hfst hsnd

/-- Models `std::sort` on the copied pair vector of the duplicate check
(sorting by the lexicographic pair order). -/
def sortPairs (pairs : List (Int × Int)) : List (Int × Int) :=
  List.insertionSort pairLe pairs

/-- Scan of the sorted pair vector for two adjacent equal pairs whose first
component is not the `-1` sentinel (the loop at the end of the
`kAddToRowsMulti`/`kCopyToRowsMulti` case of `CheckComputationIndexes`). -/
def adjacentDupOk : List (Int × Int) → Bool
  | [] => true
  | [_] => true
  | p :: q :: rest => if p = q ∧ p.1 ≠ -1 then false else adjacentDupOk (q :: rest)

/-! ## Data model: `NnetComputation`, `Nnet` -/

/-- Matrix header: row and column counts (`NnetComputation::MatrixInfo`). -/
structure MatrixInfo where
  num_rows : Nat
  num_cols : Nat
deriving DecidableEq, Inhabited

/-- Submatrix (view) header (`NnetComputation::SubMatrixInfo`). -/
structure SubMatrixInfo where
  matrix_index : Nat
  row_offset : Nat
  num_rows : Nat
  col_offset : Nat
  num_cols : Nat
deriving DecidableEq, Inhabited

/-- Opcode of one command (`NnetComputation::CommandType`). -/
inductive CommandType where
  | kAllocMatrixZeroed
  | kAllocMatrixUndefined
  | kDeallocMatrix
  | kPropagate
  | kStoreStats
  | kBackprop
  | kMatrixCopy
  | kMatrixAdd
  | kCopyRows
  | kAddRows
  | kCopyRowsMulti
  | kAddRowsMulti
  | kCopyToRowsMulti
  | kAddToRowsMulti
  | kAddRowRanges
  | kNoOperation
  | kNoOperationMarker
deriving DecidableEq, Inhabited

/-- One instruction: opcode plus up to six `int32` operands whose meaning is
opcode-dependent (`NnetComputation::Command`). -/
structure Command where
  command_type : CommandType
  arg1 : Int
  arg2 : Int
  arg3 : Int
  arg4 : Int
  arg5 : Int
  arg6 : Int
deriving DecidableEq, Inhabited

/-- The compiled program (`NnetComputation`).  `component_precomputed_indexes`
holds only that vector's size, the single fact the analyzer consults. -/
structure NnetComputation where
  matrices : List MatrixInfo
  submatrices : List SubMatrixInfo
  commands : List Command
  indexes : List (List Int)
  indexes_multi : List (List (Int × Int))
  indexes_ranges : List (List (Int × Int))
  component_precomputed_indexes : Nat
  input_output_info : List (Nat × Nat × Nat)
deriving DecidableEq, Inhabited

/-- Modelled from the spec: the capability bitset of a component/operator and
its input/output widths, supplied externally (spec section 6); the component
class itself is not part of this repository's source. -/
structure Component where
  properties : Nat
  inputDim : Nat
  outputDim : Nat
deriving DecidableEq, Inhabited

/-- Modelled from the spec: kind of a graph node; only the input/output/
component classification is consulted by the analyzer. -/
inductive NetNode where
  | input
  | output
  | component (component_index : Nat)
  | other
deriving DecidableEq, Inhabited

/-- Modelled from the spec: the network, reduced to the two lookups the
analyzer performs (component by index, node kind and component by node). -/
structure Nnet where
  components : List Component
  nodes : List NetNode
deriving DecidableEq, Inhabited

/-- Modelled from the spec: capability bit for row-count-preserving
("simple") components. -/
def kSimpleComponent : Nat := 1

/-- Modelled from the spec: capability bit for learnable-state (updatable)
components. -/
def kUpdatableComponent : Nat := 2

/-- Modelled from the spec: capability bit for in-place propagation. -/
def kPropagateInPlace : Nat := 16

/-- Modelled from the spec: capability bit for accumulating propagation. -/
def kPropagateAdds : Nat := 32

/-- Modelled from the spec: capability bit for accumulating backprop. -/
def kBackpropAdds : Nat := 128

/-- Modelled from the spec: capability bit for backprop needing the input. -/
def kBackpropNeedsInput : Nat := 256

/-- Modelled from the spec: capability bit for backprop needing the output. -/
def kBackpropNeedsOutput : Nat := 512

/-- Modelled from the spec: capability bit for in-place backprop. -/
def kBackpropInPlace : Nat := 1024

/-- Modelled from the spec: capability bit for components that store stats. -/
def kStoresStats : Nat := 2048

def defaultComponent : Component := ⟨0, 0, 0⟩

/-- Modelled from the spec: `Nnet::GetComponent`. -/
def GetComponent (nnet : Nnet) (c : Int) : Component :=
  nnet.components.getD c.toNat defaultComponent

/-- Modelled from the spec: `Nnet::IsComponentNode`. -/
def IsComponentNode (nnet : Nnet) (node : Int) : Bool :=
  match nnet.nodes.getD node.toNat .other with
  | .component _ => true
  | _ => false

/-- Modelled from the spec: `Nnet::GetComponentForNode`. -/
def GetComponentForNode (nnet : Nnet) (node : Int) : Component :=
  match nnet.nodes.getD node.toNat .other with
  | .component i => nnet.components.getD i defaultComponent
  | _ => defaultComponent

/-- Modelled from the spec: `Nnet::IsInputNode`. -/
def IsInputNode (nnet : Nnet) (node : Nat) : Bool :=
  match nnet.nodes.getD node .other with
  | .input => true
  | _ => false

/-- Modelled from the spec: `Nnet::IsOutputNode`. -/
def IsOutputNode (nnet : Nnet) (node : Nat) : Bool :=
  match nnet.nodes.getD node .other with
  | .output => true
  | _ => false

/-- Modelled from the spec: `NnetComputation::IsWholeMatrix` — a view is
whole-buffer when its row and column ranges equal the buffer's full extent. -/
def IsWholeMatrix (computation : NnetComputation) (submatrix_index : Nat) : Bool :=
  let s := computation.submatrices.getD submatrix_index default
  let m := computation.matrices.getD s.matrix_index default
  decide (s.row_offset = 0 ∧ s.num_rows = m.num_rows ∧
          s.col_offset = 0 ∧ s.num_cols = m.num_cols)

/-! ## Region partitioner (`ComputationVariables`) -/

/-- The boundary points contributed to matrix `m` by a list of submatrices:
each view of `m` pushes its column offset and its column end
(`ComputationVariables::ComputeSplitPoints`, first loop, restricted to one
matrix — the C++ pushes into per-matrix vectors as it scans). -/
def pushSplitPoints (m : Nat) : List SubMatrixInfo → List Nat
  | [] => []
  | s :: rest =>
    if s.matrix_index = m then
      s.col_offset :: (s.col_offset + s.num_cols) :: pushSplitPoints m rest
    else
      pushSplitPoints m rest

/-- Sorted deduplicated boundary list of matrix `m`
(`ComputeSplitPoints`: push both endpoints of every non-null view of `m`,
then `SortAndUniq`; the C++ sorts only matrices 1..num-1, but no valid view
names matrix 0, whose list stays empty either way). -/
def ComputeSplitPoints (computation : NnetComputation) (m : Nat) : List Nat :=
  sortAndUniq (pushSplitPoints m (computation.submatrices.drop 1))

/-- Cumulative first-global-variable index of each matrix
(`matrix_to_variable_index_`): entries 0 and 1 are 0, and each later matrix
starts where the previous one ended, the previous owning
`split_points.length - 1` variables. -/
def matrixToVariableIndex (computation : NnetComputation) : Nat → Nat
  | 0 => 0
  | 1 => 0
  | m + 2 =>
    matrixToVariableIndex computation (m + 1) +
      ((ComputeSplitPoints computation (m + 1)).length - 1)

/-- Variable range of one view (`ComputeVariableRanges` loop body): binary
search the view's column offset, then its column end starting from the first
hit (both `std::lower_bound`), and offset the two boundary positions by the
matrix's global base.  `KALDI_ASSERT(*iter == ...)` at both hits and
`KALDI_ASSERT(end > start)` are stated as theorems below. -/
def ComputeVariableRangesFor (computation : NnetComputation)
    (submatrix_index : Nat) : Nat × Nat :=
  if submatrix_index = 0 then (0, 0)
  else
    let s := computation.submatrices.getD submatrix_index default
    let split := ComputeSplitPoints computation s.matrix_index
    let start_dim := s.col_offset
    let end_dim := s.col_offset + s.num_cols
    let start_split_point_index := lowerBoundIdx split start_dim
    let end_split_point_index :=
      start_split_point_index +
        lowerBoundIdx (split.drop start_split_point_index) end_dim
    let matrix_offset := matrixToVariableIndex computation s.matrix_index
    (matrix_offset + start_split_point_index,
     matrix_offset + end_split_point_index)

/-- Whether a view spans the full row range of its matrix
(`full_column_range_`, set at the end of `ComputeVariableRanges`). -/
def fullColumnRangeFor (computation : NnetComputation)
    (submatrix_index : Nat) : Bool :=
  let s := computation.submatrices.getD submatrix_index default
  decide (s.row_offset = 0 ∧
          s.num_rows = (computation.matrices.getD s.matrix_index default).num_rows)

/-- State of `ComputationVariables` after `Init`. -/
structure ComputationVariables where
  split_points : List (List Nat)
  matrix_to_variable_index : List Nat
  num_variables : Nat
  variable_ranges : List (Nat × Nat)
  full_column_range : List Bool
  submatrix_to_matrix : List Nat
  submatrix_is_whole_matrix : List Bool
  variable_to_matrix : List Int
deriving DecidableEq, Inhabited

/-- `ComputationVariables::ComputeVariableToMatrix`: for every view, stamp
its owning matrix on each variable of its range (`-1` = not yet stamped; the
C++ `KALDI_ASSERT`s that repeated stamps agree). -/
def ComputeVariableToMatrix (computation : NnetComputation) : List Int :=
  let n := matrixToVariableIndex computation computation.matrices.length
  (List.range computation.submatrices.length).foldl
    (fun acc si =>
      if si = 0 then acc
      else
        let mi := (computation.submatrices.getD si default).matrix_index
        let r := ComputeVariableRangesFor computation si
        (List.range' r.1 (r.2 - r.1)).foldl
          (fun acc2 v =>
            if acc2.getD v (-1) = -1 then modifyAt acc2 v (fun _ => (mi : Int))
            else acc2)
          acc)
    (List.replicate n (-1))

/-- `ComputationVariables::Init`: build all the tables from the program. -/
def initComputationVariables (computation : NnetComputation) : ComputationVariables :=
  { split_points :=
      (List.range computation.matrices.length).map (ComputeSplitPoints computation)
    matrix_to_variable_index :=
      (List.range (computation.matrices.length + 1)).map
        (matrixToVariableIndex computation)
    num_variables := matrixToVariableIndex computation computation.matrices.length
    variable_ranges :=
      (List.range computation.submatrices.length).map
        (ComputeVariableRangesFor computation)
    full_column_range :=
      (List.range computation.submatrices.length).map
        (fullColumnRangeFor computation)
    submatrix_to_matrix :=
      (List.range computation.submatrices.length).map
        (fun si => if si = 0 then 0
                   else (computation.submatrices.getD si default).matrix_index)
    submatrix_is_whole_matrix :=
      (List.range computation.submatrices.length).map
        (fun si => if si = 0 then false else IsWholeMatrix computation si)
    variable_to_matrix := ComputeVariableToMatrix computation }

/-- `ComputationVariables::GetMatrixForVariable`. -/
def GetMatrixForVariable (vars : ComputationVariables) (v : Nat) : Int :=
  vars.variable_to_matrix.getD v (-1)

/-! ## Access classifier -/

/-- Access kinds (`AccessType`). -/
inductive AccessType where
  | kReadAccess
  | kWriteAccess
  | kReadWriteAccess
deriving DecidableEq, Inhabited

/-- Per-command attribute sets (`CommandAttributes`). -/
structure CommandAttributes where
  variables_read : List Nat
  variables_written : List Nat
  submatrices_read : List Int
  submatrices_written : List Int
  matrices_read : List Nat
  matrices_written : List Nat
  has_side_effects : Bool
deriving DecidableEq, Inhabited

/-- Freshly default-constructed `CommandAttributes`. -/
def emptyAttributes : CommandAttributes :=
  ⟨[], [], [], [], [], [], false⟩

/-- `ComputationVariables::AppendVariablesForSubmatrix`: push the half-open
variable range of the view onto the given vector.  Table lookups use
`Int.toNat`; the C++ `KALDI_ASSERT`s the index is in range. -/
def AppendVariablesForSubmatrix (vars : ComputationVariables)
    (submatrix_index : Int) (variable_indexes : List Nat) : List Nat :=
  let r := vars.variable_ranges.getD submatrix_index.toNat (0, 0)
  variable_indexes ++ List.range' r.1 (r.2 - r.1)

/-- `ComputationVariables::AppendVariablesForMatrix`: push the whole
variable block of the matrix. -/
def AppendVariablesForMatrix (vars : ComputationVariables)
    (matrix_index : Int) (variable_indexes : List Nat) : List Nat :=
  let start := vars.matrix_to_variable_index.getD matrix_index.toNat 0
  let stop := vars.matrix_to_variable_index.getD (matrix_index.toNat + 1) 0
  variable_indexes ++ List.range' start (stop - start)

/-- `ComputationVariables::RecordAccessForSubmatrix`: record one access of a
view into the attribute sets.  The null view (index 0) records nothing.  A
write on a view that does not span the full row range of its matrix also
counts as a read of its variables, and a write on a view that is not the
whole matrix also counts as a read of the matrix. -/
def RecordAccessForSubmatrix (vars : ComputationVariables)
    (submatrix_index : Int) (access_type : AccessType)
    (ca : CommandAttributes) : CommandAttributes :=
  if submatrix_index = 0 then ca
  else
    let matrix_index := vars.submatrix_to_matrix.getD submatrix_index.toNat 0
    let is_whole_matrix :=
      vars.submatrix_is_whole_matrix.getD submatrix_index.toNat false
    match access_type with
    | .kReadAccess =>
      { ca with
        variables_read := AppendVariablesForSubmatrix vars submatrix_index ca.variables_read
        matrices_read := ca.matrices_read ++ [matrix_index]
        submatrices_read := ca.submatrices_read ++ [submatrix_index] }
    | .kWriteAccess =>
      let ca1 :=
        { ca with
          variables_written :=
            AppendVariablesForSubmatrix vars submatrix_index ca.variables_written
          submatrices_written := ca.submatrices_written ++ [submatrix_index]
          matrices_written := ca.matrices_written ++ [matrix_index] }
      let ca2 :=
        if vars.full_column_range.getD submatrix_index.toNat false = false then
          { ca1 with
            variables_read :=
              AppendVariablesForSubmatrix vars submatrix_index ca1.variables_read }
        else ca1
      if is_whole_matrix = false then
        { ca2 with matrices_read := ca2.matrices_read ++ [matrix_index] }
      else ca2
    | .kReadWriteAccess =>
      { ca with
        variables_written :=
          AppendVariablesForSubmatrix vars submatrix_index ca.variables_written
        variables_read :=
          AppendVariablesForSubmatrix vars submatrix_index ca.variables_read
        submatrices_written := ca.submatrices_written ++ [submatrix_index]
        submatrices_read := ca.submatrices_read ++ [submatrix_index]
        matrices_written := ca.matrices_written ++ [matrix_index]
        matrices_read := ca.matrices_read ++ [matrix_index] }

/-- Inner loop of `IndexesMultiToSubmatrixIndexes`: collect the first
components of the pairs, skipping `-1` and skipping a value equal to the one
most recently pushed (`cur_submatrix_index`, "an optimization"). -/
def indexesMultiLoop : List (Int × Int) → Int → List Int
  | [], _ => []
  | p :: rest, cur =>
    if p.1 ≠ -1 ∧ p.1 ≠ cur then p.1 :: indexesMultiLoop rest p.1
    else indexesMultiLoop rest cur

/-- `IndexesMultiToSubmatrixIndexes`: the unique non-sentinel submatrix
indexes appearing as first components of the pair list, sorted. -/
def IndexesMultiToSubmatrixIndexes (indexes_multi : List (Int × Int)) : List Int :=
  sortAndUniq (indexesMultiLoop indexes_multi (-1))

/-- Final normalization at the end of the `ComputeCommandAttributes` loop
body: `SortAndUniq` on all six attribute vectors. -/
def sortAttributes (attr : CommandAttributes) : CommandAttributes :=
  { attr with
    variables_read := sortAndUniq attr.variables_read
    variables_written := sortAndUniq attr.variables_written
    submatrices_read := sortAndUniq attr.submatrices_read
    submatrices_written := sortAndUniq attr.submatrices_written
    matrices_read := sortAndUniq attr.matrices_read
    matrices_written := sortAndUniq attr.matrices_written }

/-- Body of the `ComputeCommandAttributes` loop for one command: the
per-opcode read/write classification switch. -/
def ComputeCommandAttributesFor (nnet : Nnet) (computation : NnetComputation)
    (vars : ComputationVariables) (c : Command) : CommandAttributes :=
  sortAttributes
    (match c.command_type with
     | .kAllocMatrixZeroed =>
       { emptyAttributes with
         variables_written := AppendVariablesForMatrix vars c.arg1 []
         matrices_written := [c.arg1.toNat] }
     | .kAllocMatrixUndefined => emptyAttributes
     | .kDeallocMatrix => emptyAttributes
     | .kPropagate =>
       let a1 := RecordAccessForSubmatrix vars c.arg3 .kReadAccess emptyAttributes
       if (GetComponent nnet c.arg1).properties &&& kPropagateAdds ≠ 0 then
         RecordAccessForSubmatrix vars c.arg4 .kReadWriteAccess a1
       else
         RecordAccessForSubmatrix vars c.arg4 .kWriteAccess a1
     | .kStoreStats =>
       RecordAccessForSubmatrix vars c.arg2 .kReadAccess emptyAttributes
     | .kBackprop =>
       let component := GetComponentForNode nnet c.arg1
       let a1 := RecordAccessForSubmatrix vars c.arg3 .kReadAccess emptyAttributes
       let a2 := RecordAccessForSubmatrix vars c.arg4 .kReadAccess a1
       let a3 := RecordAccessForSubmatrix vars c.arg5 .kReadAccess a2
       let a4 :=
         if component.properties &&& kBackpropAdds ≠ 0 then
           RecordAccessForSubmatrix vars c.arg6 .kReadWriteAccess a3
         else
           RecordAccessForSubmatrix vars c.arg6 .kWriteAccess a3
       if component.properties &&& kUpdatableComponent ≠ 0 then
         { a4 with has_side_effects := true }
       else a4
     | .kMatrixCopy =>
       let a1 := RecordAccessForSubmatrix vars c.arg1 .kWriteAccess emptyAttributes
       RecordAccessForSubmatrix vars c.arg2 .kReadAccess a1
     | .kMatrixAdd =>
       let a1 := RecordAccessForSubmatrix vars c.arg1 .kReadWriteAccess emptyAttributes
       RecordAccessForSubmatrix vars c.arg2 .kReadAccess a1
     | .kAddRows =>
       let a1 := RecordAccessForSubmatrix vars c.arg1 .kReadWriteAccess emptyAttributes
       RecordAccessForSubmatrix vars c.arg2 .kReadAccess a1
     | .kCopyRows =>
       let indexes := computation.indexes.getD c.arg3.toNat []
       let a1 :=
         if 0 < indexes.count (-1) then
           RecordAccessForSubmatrix vars c.arg1 .kReadWriteAccess emptyAttributes
         else
           RecordAccessForSubmatrix vars c.arg1 .kWriteAccess emptyAttributes
       RecordAccessForSubmatrix vars c.arg2 .kReadAccess a1
     | .kAddRowsMulti =>
       let a1 := RecordAccessForSubmatrix vars c.arg1 .kReadWriteAccess emptyAttributes
       let submatrix_indexes :=
         IndexesMultiToSubmatrixIndexes (computation.indexes_multi.getD c.arg2.toNat [])
       submatrix_indexes.foldl
         (fun a s => RecordAccessForSubmatrix vars s .kReadAccess a) a1
     | .kCopyRowsMulti =>
       let submatrix_indexes :=
         IndexesMultiToSubmatrixIndexes (computation.indexes_multi.getD c.arg2.toNat [])
       let a1 := RecordAccessForSubmatrix vars c.arg1 .kWriteAccess emptyAttributes
       submatrix_indexes.foldl
         (fun a s => RecordAccessForSubmatrix vars s .kReadAccess a) a1
     | .kAddToRowsMulti =>
       let a1 := RecordAccessForSubmatrix vars c.arg1 .kReadAccess emptyAttributes
       let submatrix_indexes :=
         IndexesMultiToSubmatrixIndexes (computation.indexes_multi.getD c.arg2.toNat [])
       submatrix_indexes.foldl
         (fun a s => RecordAccessForSubmatrix vars s .kReadWriteAccess a) a1
     | .kCopyToRowsMulti =>
       let a1 := RecordAccessForSubmatrix vars c.arg1 .kReadAccess emptyAttributes
       let submatrix_indexes :=
         IndexesMultiToSubmatrixIndexes (computation.indexes_multi.getD c.arg2.toNat [])
       submatrix_indexes.foldl
         (fun a s => RecordAccessForSubmatrix vars s .kReadWriteAccess a) a1
     | .kAddRowRanges =>
       let a1 := RecordAccessForSubmatrix vars c.arg1 .kReadWriteAccess emptyAttributes
       RecordAccessForSubmatrix vars c.arg2 .kReadAccess a1
     | .kNoOperation => emptyAttributes
     | .kNoOperationMarker => emptyAttributes)

/-- `ComputeCommandAttributes`: classify every command of the program. -/
def ComputeCommandAttributes (nnet : Nnet) (computation : NnetComputation)
    (vars : ComputationVariables) : List CommandAttributes :=
  computation.commands.map (ComputeCommandAttributesFor nnet computation vars)

/-! ## Access-history builder -/

/-- One recorded touch: instruction index and kind (`Access`). -/
structure Access where
  command_index : Nat
  access_type : AccessType
deriving DecidableEq, Inhabited

/-- Per-matrix access record (`MatrixAccesses`): chronological accesses,
allocating and deallocating command (`-1` = none), input/output flags. -/
structure MatrixAccesses where
  allocate_command : Int
  deallocate_command : Int
  accesses : List Access
  is_input : Bool
  is_output : Bool
deriving DecidableEq, Inhabited

/-- Default-constructed `MatrixAccesses`. -/
def emptyMatrixAccesses : MatrixAccesses :=
  ⟨-1, -1, [], false, false⟩

/-- `ComputeVariableAccesses`: invert the per-command attribute sets into
per-variable chronological access lists; a variable in both the read and
written set of a command gets a ReadWrite access, read-only a Read, else a
Write (the C++ `std::binary_search` on the sorted sets is membership). -/
def ComputeVariableAccesses (vars : ComputationVariables)
    (command_attributes : List CommandAttributes) : List (List Access) :=
  (List.range command_attributes.length).foldl
    (fun acc c =>
      let attr := command_attributes.getD c emptyAttributes
      let all_variables := sortAndUniq (attr.variables_read ++ attr.variables_written)
      all_variables.foldl
        (fun acc2 v =>
          let is_read := decide (v ∈ attr.variables_read)
          let is_written :=
            if is_read = false then true else decide (v ∈ attr.variables_written)
          let ty :=
            if is_read && is_written then AccessType.kReadWriteAccess
            else if is_read then AccessType.kReadAccess
            else AccessType.kWriteAccess
          modifyAt acc2 v (fun lst => lst ++ [⟨c, ty⟩]))
        acc)
    (List.replicate vars.num_variables [])

/-- Everything the checks can fail with; one constructor per `KALDI_ERR`
or `KALDI_ASSERT` site the embedding models. -/
inductive CheckErr where
  | matrixIndexOutOfRange
  | componentIndexOutOfRange
  | precomputedIndexesOutOfRange
  | precomputedIndexesNonzeroSimple
  | propagateSubmatrixOutOfRange
  | propagateInputDimMismatch
  | propagateOutputDimMismatch
  | propagateNumRowsMismatch
  | propagateInPlaceUnsupported
  | storeStatsNoFlag
  | storeStatsInvalidSubmatrix
  | storeStatsDimMismatch
  | backpropNodeInvalid
  | backpropSubmatrixOutOfRange
  | backpropInputNeeded
  | backpropOutputNeeded
  | backpropNoEffect
  | backpropInPlaceUnsupported
  | backpropInputDimMismatch
  | backpropOutputDimMismatch
  | backpropNumRowsMismatchInput
  | backpropNumRowsMismatchOutput
  | backpropNumRowsMismatchInOut
  | matrixCopyOutOfRange
  | matrixCopyDimMismatch
  | matrixCopySelf
  | addRowsOutOfRange
  | addRowsSizeMismatch
  | addRowsDimMismatch
  | addRowsRowIndexOutOfRange
  | addRowsSelf
  | multiOutOfRange
  | multiSizeMismatch
  | multiExpectedNeg1Row
  | multiSubmatrixOutOfRange
  | multiRowOutOfRange
  | multiCopyFromSelf
  | multiDimMismatch
  | duplicateIndexesMulti
  | addRowRangesOutOfRange
  | addRowRangesNumRowsMismatch
  | addRowRangesDimMismatch
  | addRowRangesBadRange
  | expectedOneMarker
  | markerUnexpectedPlace
  | backpropBeforeMarker
  | propagateAfterMarker
  | storeStatsAfterMarker
  | inputMatrixInitialized
  | matrixNotInitialized
  | matrixNeverAccessed
  | matrixAccessedBeforeInit
  | outputMatrixDestroyed
  | matrixNotDestroyed
  | matrixNeverAccessedAtEnd
  | matrixAccessedAfterDestroy
  | variableNeverUsedUndef
  | variableReadBeforeWrite
  | variableNeverUsedRewrite
  | variableRewritten
  | matrixInitializedTwice
  | matrixDestroyedTwice
  | internalAssertFailed
deriving DecidableEq, Inhabited

/-- `ComputeMatrixAccesses`: per-matrix chronological access lists (mirroring
the variable procedure at matrix granularity), the allocate/deallocate
command of each matrix (duplicate allocation or deallocation is a fatal
error), and the input/output flags from `input_output_info`
(`KALDI_ASSERT`ed not to repeat). -/
def ComputeMatrixAccesses (nnet : Nnet) (computation : NnetComputation)
    (command_attributes : List CommandAttributes) :
    Except CheckErr (List MatrixAccesses) := do
  let num_matrices := computation.matrices.length
  let step1 ←
    (List.range command_attributes.length).foldlM
      (fun (acc : List MatrixAccesses) c => do
        let attr := command_attributes.getD c emptyAttributes
        let all_matrices := sortAndUniq (attr.matrices_read ++ attr.matrices_written)
        let acc2 :=
          all_matrices.foldl
            (fun a m =>
              let is_read := decide (m ∈ attr.matrices_read)
              let is_written :=
                if is_read = false then true else decide (m ∈ attr.matrices_written)
              let ty :=
                if is_read && is_written then AccessType.kReadWriteAccess
                else if is_read then AccessType.kReadAccess
                else AccessType.kWriteAccess
              modifyAt a m (fun ma => { ma with accesses := ma.accesses ++ [⟨c, ty⟩] }))
            acc
        let command := computation.commands.getD c default
        let matrix_index := command.arg1.toNat
        match command.command_type with
        | .kAllocMatrixZeroed | .kAllocMatrixUndefined =>
          if (acc2.getD matrix_index emptyMatrixAccesses).allocate_command ≠ -1 then
            .error .matrixInitializedTwice
          else
            .ok (modifyAt acc2 matrix_index
                   (fun ma => { ma with allocate_command := (c : Int) }))
        | .kDeallocMatrix =>
          if (acc2.getD matrix_index emptyMatrixAccesses).deallocate_command ≠ -1 then
            .error .matrixDestroyedTwice
          else
            .ok (modifyAt acc2 matrix_index
                   (fun ma => { ma with deallocate_command := (c : Int) }))
        | _ => .ok acc2)
      (List.replicate num_matrices emptyMatrixAccesses)
  computation.input_output_info.foldlM
    (fun (acc : List MatrixAccesses) info => do
      let node_index := info.1
      let value_matrix_index := info.2.1
      let deriv_matrix_index := info.2.2
      if value_matrix_index = 0 ∨ value_matrix_index ≥ num_matrices then
        .error .internalAssertFailed
      else if IsInputNode nnet node_index then
        if (acc.getD value_matrix_index emptyMatrixAccesses).is_input then
          .error .internalAssertFailed
        else
          let acc1 := modifyAt acc value_matrix_index (fun ma => { ma with is_input := true })
          if deriv_matrix_index ≠ 0 then
            if (acc1.getD deriv_matrix_index emptyMatrixAccesses).is_output then
              .error .internalAssertFailed
            else
              .ok (modifyAt acc1 deriv_matrix_index (fun ma => { ma with is_output := true }))
          else
            .ok acc1
      else if IsOutputNode nnet node_index then
        if (acc.getD value_matrix_index emptyMatrixAccesses).is_output then
          .error .internalAssertFailed
        else
          let acc1 := modifyAt acc value_matrix_index (fun ma => { ma with is_output := true })
          if deriv_matrix_index ≠ 0 then
            if (acc1.getD deriv_matrix_index emptyMatrixAccesses).is_input then
              .error .internalAssertFailed
            else
              .ok (modifyAt acc1 deriv_matrix_index (fun ma => { ma with is_input := true }))
          else
            .ok acc1
      else
        .error .internalAssertFailed)
    step1

/-- The aggregate analysis result (`Analyzer`); the C++ member `variables`
is spelled `variables_` because `variables` cannot be a Lean field name. -/
structure Analyzer where
  variables_ : ComputationVariables
  command_attributes : List CommandAttributes
  variable_accesses : List (List Access)
  matrix_accesses : List MatrixAccesses
deriving DecidableEq, Inhabited

/-- `Analyzer::Init`: run the full pipeline on one program snapshot. -/
def AnalyzerInit (nnet : Nnet) (computation : NnetComputation) :
    Except CheckErr Analyzer := do
  let vars := initComputationVariables computation
  let attrs := ComputeCommandAttributes nnet computation vars
  let vaccesses := ComputeVariableAccesses vars attrs
  let maccesses ← ComputeMatrixAccesses nnet computation attrs
  .ok ⟨vars, attrs, vaccesses, maccesses⟩

/-! ## Verifier (`ComputationChecker`) -/

/-- Checker configuration (`CheckComputationOptions`); only the
rewrite-check flag matters to the checks modelled here. -/
structure CheckComputationOptions where
  check_rewrite : Bool
deriving DecidableEq, Inhabited

/-- Per-pair validation inside the `*RowsMulti` case of
`CheckComputationIndexes`: a `-1` submatrix must pair with a `-1` row; a
real submatrix index must be a valid non-null view, with a row index within
its row count, must differ from the command's own view, and must have
matching column count. -/
def checkMultiPair (computation : NnetComputation) (arg1 : Int)
    (num_cols : Nat) (p : Int × Int) : Except CheckErr Unit :=
  let num_submatrices := computation.submatrices.length
  if p.1 = -1 then
    if p.2 ≠ -1 then .error .multiExpectedNeg1Row else .ok ()
  else if p.1 < 1 ∨ p.1 ≥ (num_submatrices : Int) then
    .error .multiSubmatrixOutOfRange
  else if p.2 < 0 ∨
      p.2 ≥ ((computation.submatrices.getD p.1.toNat default).num_rows : Int) then
    .error .multiRowOutOfRange
  else if p.1 = arg1 then
    .error .multiCopyFromSelf
  else if (computation.submatrices.getD p.1.toNat default).num_cols ≠ num_cols then
    .error .multiDimMismatch
  else .ok ()

/-- Duplicate-target check of the scatter (`kAddToRowsMulti` /
`kCopyToRowsMulti`) case: sort a copy of the pair list and reject two equal
adjacent pairs whose submatrix component is not the `-1` sentinel. -/
def checkMultiDuplicates (pairs : List (Int × Int)) : Except CheckErr Unit :=
  if adjacentDupOk (sortPairs pairs) then .ok () else .error .duplicateIndexesMulti

/-- Loop body of `ComputationChecker::CheckComputationIndexes` for one
command: operand ranges, dimension agreement, in-place support, and the
scatter duplicate-target prohibition.  In the `kBackprop` case the
"Backprop is done but has no effect" test reads
`!(properties && kUpdatableComponent)` — a logical AND in the C++, embedded
as the conjunction of the two disequalities, not as a bit test. -/
def checkCommandIndexes (nnet : Nnet) (computation : NnetComputation)
    (c : Command) : Except CheckErr Unit :=
  let num_matrices := computation.matrices.length
  let num_submatrices := computation.submatrices.length
  let submatrices := computation.submatrices
  match c.command_type with
  | .kAllocMatrixZeroed | .kAllocMatrixUndefined | .kDeallocMatrix =>
    if c.arg1 < 1 ∨ c.arg1 ≥ (num_matrices : Int) then
      .error .matrixIndexOutOfRange
    else .ok ()
  | .kPropagate =>
    if c.arg1 < 0 ∨ c.arg1 ≥ (nnet.components.length : Int) then
      .error .componentIndexOutOfRange
    else
      let component := GetComponent nnet c.arg1
      let properties := component.properties
      if c.arg2 < 0 ∨ c.arg2 > (computation.component_precomputed_indexes : Int) then
        .error .precomputedIndexesOutOfRange
      else if c.arg2 ≠ 0 ∧ properties &&& kSimpleComponent ≠ 0 then
        .error .precomputedIndexesNonzeroSimple
      else if c.arg3 < 0 ∨ c.arg3 ≥ (num_submatrices : Int) ∨
          (c.arg3 = 0 ∧ properties &&& kSimpleComponent = 0) ∨
          c.arg4 < 1 ∨ c.arg4 ≥ (num_submatrices : Int) then
        .error .propagateSubmatrixOutOfRange
      else if (submatrices.getD c.arg3.toNat default).num_cols ≠ component.inputDim then
        .error .propagateInputDimMismatch
      else if (submatrices.getD c.arg4.toNat default).num_cols ≠ component.outputDim then
        .error .propagateOutputDimMismatch
      else if properties &&& kSimpleComponent ≠ 0 ∧
          (submatrices.getD c.arg3.toNat default).num_rows ≠
            (submatrices.getD c.arg4.toNat default).num_rows then
        .error .propagateNumRowsMismatch
      else if properties &&& kPropagateInPlace = 0 ∧ c.arg3 = c.arg4 then
        .error .propagateInPlaceUnsupported
      else .ok ()
  | .kStoreStats =>
    if c.arg1 < 0 ∨ c.arg1 ≥ (nnet.components.length : Int) then
      .error .componentIndexOutOfRange
    else
      let component := GetComponent nnet c.arg1
      if component.properties &&& kStoresStats = 0 then
        .error .storeStatsNoFlag
      else if c.arg2 < 1 ∨ c.arg2 ≥ (num_submatrices : Int) then
        .error .storeStatsInvalidSubmatrix
      else if (submatrices.getD c.arg2.toNat default).num_cols ≠ component.outputDim then
        .error .storeStatsDimMismatch
      else .ok ()
  | .kBackprop =>
    if c.arg1 < 0 ∨ c.arg1 ≥ (nnet.nodes.length : Int) ∨
        IsComponentNode nnet c.arg1 = false then
      .error .backpropNodeInvalid
    else
      let component := GetComponentForNode nnet c.arg1
      let properties := component.properties
      if c.arg2 < 0 ∨ c.arg2 > (computation.component_precomputed_indexes : Int) then
        .error .precomputedIndexesOutOfRange
      else if c.arg2 ≠ 0 ∧ properties &&& kSimpleComponent ≠ 0 then
        .error .precomputedIndexesNonzeroSimple
      else if c.arg3 < 0 ∨ c.arg3 ≥ (num_submatrices : Int) ∨
          c.arg4 < 0 ∨ c.arg4 ≥ (num_submatrices : Int) ∨
          c.arg5 < 1 ∨ c.arg5 ≥ (num_submatrices : Int) ∨
          c.arg6 < 0 ∨ c.arg6 ≥ (num_submatrices : Int) then
        .error .backpropSubmatrixOutOfRange
      else if properties &&& kBackpropNeedsInput ≠ 0 ∧ c.arg3 = 0 then
        .error .backpropInputNeeded
      else if properties &&& kBackpropNeedsOutput ≠ 0 ∧ c.arg4 = 0 then
        .error .backpropOutputNeeded
      else if c.arg6 = 0 ∧ ¬(properties ≠ 0 ∧ kUpdatableComponent ≠ 0) then
        .error .backpropNoEffect
      else if c.arg5 = c.arg6 ∧ properties &&& kBackpropInPlace = 0 then
        .error .backpropInPlaceUnsupported
      else if c.arg3 ≠ 0 ∧
          (submatrices.getD c.arg3.toNat default).num_cols ≠ component.inputDim then
        .error .backpropInputDimMismatch
      else if c.arg4 ≠ 0 ∧
          (submatrices.getD c.arg4.toNat default).num_cols ≠ component.outputDim then
        .error .backpropOutputDimMismatch
      else if c.arg5 ≠ 0 ∧
          (submatrices.getD c.arg5.toNat default).num_cols ≠ component.outputDim then
        .error .backpropOutputDimMismatch
      else if c.arg6 ≠ 0 ∧
          (submatrices.getD c.arg6.toNat default).num_cols ≠ component.inputDim then
        .error .backpropInputDimMismatch
      else if c.arg3 ≠ 0 ∧ c.arg6 ≠ 0 ∧
          (submatrices.getD c.arg3.toNat default).num_rows ≠
            (submatrices.getD c.arg6.toNat default).num_rows then
        .error .backpropNumRowsMismatchInput
      else if c.arg4 ≠ 0 ∧
          (submatrices.getD c.arg4.toNat default).num_rows ≠
            (submatrices.getD c.arg5.toNat default).num_rows then
        .error .backpropNumRowsMismatchOutput
      else if properties &&& kSimpleComponent ≠ 0 ∧ c.arg6 ≠ 0 ∧
          (submatrices.getD c.arg5.toNat default).num_rows ≠
            (submatrices.getD c.arg6.toNat default).num_rows then
        .error .backpropNumRowsMismatchInOut
      else .ok ()
  | .kMatrixCopy | .kMatrixAdd =>
    if c.arg1 < 1 ∨ c.arg1 ≥ (num_submatrices : Int) ∨
        c.arg2 < 1 ∨ c.arg2 ≥ (num_submatrices : Int) then
      .error .matrixCopyOutOfRange
    else if (submatrices.getD c.arg1.toNat default).num_rows ≠
          (submatrices.getD c.arg2.toNat default).num_rows ∨
        (submatrices.getD c.arg1.toNat default).num_cols ≠
          (submatrices.getD c.arg2.toNat default).num_cols then
      .error .matrixCopyDimMismatch
    else if c.arg1 = c.arg2 then
      .error .matrixCopySelf
    else .ok ()
  | .kAddRows | .kCopyRows =>
    if c.arg1 < 1 ∨ c.arg1 ≥ (num_submatrices : Int) ∨
        c.arg2 < 1 ∨ c.arg2 ≥ (num_submatrices : Int) ∨
        c.arg3 < 0 ∨ c.arg3 ≥ (computation.indexes.length : Int) then
      .error .addRowsOutOfRange
    else
      let indexes := computation.indexes.getD c.arg3.toNat []
      if indexes.length ≠ (submatrices.getD c.arg1.toNat default).num_rows then
        .error .addRowsSizeMismatch
      else if (submatrices.getD c.arg1.toNat default).num_cols ≠
          (submatrices.getD c.arg2.toNat default).num_cols then
        .error .addRowsDimMismatch
      else
        match indexes.max? with
        | some mx =>
          if mx ≥ ((submatrices.getD c.arg2.toNat default).num_rows : Int) then
            .error .addRowsRowIndexOutOfRange
          else if c.arg1 = c.arg2 then
            .error .addRowsSelf
          else .ok ()
        | none =>
          if c.arg1 = c.arg2 then .error .addRowsSelf else .ok ()
  | .kAddRowsMulti | .kCopyRowsMulti | .kAddToRowsMulti | .kCopyToRowsMulti =>
    if c.arg1 < 1 ∨ c.arg1 ≥ (num_submatrices : Int) ∨
        c.arg2 < 0 ∨ c.arg2 ≥ (computation.indexes_multi.length : Int) then
      .error .multiOutOfRange
    else
      let pairs := computation.indexes_multi.getD c.arg2.toNat []
      let num_rows := (submatrices.getD c.arg1.toNat default).num_rows
      let num_cols := (submatrices.getD c.arg1.toNat default).num_cols
      if pairs.length ≠ num_rows then
        .error .multiSizeMismatch
      else
        match checkAll (checkMultiPair computation c.arg1 num_cols) pairs with
        | .error e => .error e
        | .ok _ =>
          if c.command_type = .kAddToRowsMulti ∨ c.command_type = .kCopyToRowsMulti then
            checkMultiDuplicates pairs
          else .ok ()
  | .kAddRowRanges =>
    if c.arg1 < 1 ∨ c.arg1 ≥ (num_submatrices : Int) ∨
        c.arg2 < 1 ∨ c.arg2 ≥ (num_submatrices : Int) ∨
        c.arg3 < 0 ∨ c.arg3 ≥ (computation.indexes_ranges.length : Int) then
      .error .addRowRangesOutOfRange
    else
      let pairs := computation.indexes_ranges.getD c.arg2.toNat []
      if (submatrices.getD c.arg1.toNat default).num_rows ≠ pairs.length then
        .error .addRowRangesNumRowsMismatch
      else if (submatrices.getD c.arg1.toNat default).num_cols ≠
          (submatrices.getD c.arg2.toNat default).num_cols then
        .error .addRowRangesDimMismatch
      else
        let src_num_rows := (submatrices.getD c.arg2.toNat default).num_rows
        checkAll
          (fun (p : Int × Int) =>
            if p.2 < p.1 ∨ p.1 < 0 ∨ p.2 > (src_num_rows : Int) then
              .error .addRowRangesBadRange
            else .ok ())
          pairs
  | .kNoOperation => .ok ()
  | .kNoOperationMarker => .ok ()

/-- `ComputationChecker::CheckComputationIndexes`: run the per-command
structural check over the whole program, aborting at the first error. -/
def checkComputationIndexes (nnet : Nnet) (computation : NnetComputation) :
    Except CheckErr Unit :=
  checkAll (checkCommandIndexes nnet computation) computation.commands

/-- Index (0 if none) of the last pass marker, as left in `marker_location`
by the counting loop of `CheckComputationOrder`. -/
def markerLocation (computation : NnetComputation) : Nat :=
  (List.range computation.commands.length).foldl
    (fun acc ci =>
      if (computation.commands.getD ci default).command_type = .kNoOperationMarker
      then ci else acc)
    0

/-- `ComputationChecker::CheckComputationOrder`: exactly one pass marker
must exist; no `kBackprop` before it; no `kPropagate` or `kStoreStats`
after it. -/
def checkComputationOrder (computation : NnetComputation) : Except CheckErr Unit :=
  let num_commands := computation.commands.length
  let num_markers :=
    ((List.range num_commands).filter
      (fun ci =>
        decide ((computation.commands.getD ci default).command_type =
          .kNoOperationMarker))).length
  let marker_location := markerLocation computation
  if num_markers ≠ 1 then .error .expectedOneMarker
  else
    checkAll
      (fun ci =>
        let t := (computation.commands.getD ci default).command_type
        if ci ≠ marker_location ∧ t = .kNoOperationMarker then
          .error .markerUnexpectedPlace
        else if ci < marker_location ∧ t = .kBackprop then
          .error .backpropBeforeMarker
        else if ci > marker_location ∧ t = .kPropagate then
          .error .propagateAfterMarker
        else if ci > marker_location ∧ t = .kStoreStats then
          .error .storeStatsAfterMarker
        else .ok ())
      (List.range num_commands)

/-- Per-matrix body of `CheckComputationMatrixAccesses`: an input matrix
must not be allocated; a non-input matrix must be allocated, accessed, and
not accessed before allocation; an output matrix must not be deallocated; a
non-output matrix must be deallocated and not accessed at/after
deallocation, and may lack accesses only when it is an input (which only
warns, once per process). -/
def checkMatrixAccessRecord (acc : MatrixAccesses) : Except CheckErr Unit :=
  if acc.is_input ∧ acc.allocate_command ≠ -1 then
    .error .inputMatrixInitialized
  else if ¬acc.is_input ∧ acc.allocate_command = -1 then
    .error .matrixNotInitialized
  else if ¬acc.is_input ∧ acc.accesses = [] then
    .error .matrixNeverAccessed
  else if ¬acc.is_input ∧ acc.accesses ≠ [] ∧
      ((acc.accesses.headD default).command_index : Int) < acc.allocate_command then
    .error .matrixAccessedBeforeInit
  else if acc.is_output ∧ acc.deallocate_command ≠ -1 then
    .error .outputMatrixDestroyed
  else if ¬acc.is_output ∧ acc.deallocate_command = -1 then
    .error .matrixNotDestroyed
  else if ¬acc.is_output ∧ acc.accesses = [] ∧ ¬acc.is_input then
    .error .matrixNeverAccessedAtEnd
  else if ¬acc.is_output ∧ acc.accesses ≠ [] ∧
      ((acc.accesses.getLastD default).command_index : Int) ≥ acc.deallocate_command then
    .error .matrixAccessedAfterDestroy
  else .ok ()

/-- `ComputationChecker::CheckComputationMatrixAccesses`: run the lifecycle
check on every matrix except the null matrix 0. -/
def checkComputationMatrixAccesses (matrix_accesses : List MatrixAccesses) :
    Except CheckErr Unit :=
  checkAll
    (fun m => checkMatrixAccessRecord (matrix_accesses.getD m emptyMatrixAccesses))
    (List.range' 1 (matrix_accesses.length - 1))

/-- `ComputationChecker::CheckComputationUndefined`: every variable of a
non-input matrix must be accessed, and its first access must be a pure
write. -/
def checkComputationUndefined (a : Analyzer) : Except CheckErr Unit :=
  checkAll
    (fun v =>
      let accesses := a.variable_accesses.getD v []
      let matrix_index := (GetMatrixForVariable a.variables_ v).toNat
      let is_input := (a.matrix_accesses.getD matrix_index emptyMatrixAccesses).is_input
      if ¬is_input ∧ accesses = [] then
        .error .variableNeverUsedUndef
      else if ¬is_input ∧ accesses ≠ [] ∧
          (accesses.headD default).access_type ≠ .kWriteAccess then
        .error .variableReadBeforeWrite
      else .ok ())
    (List.range a.variable_accesses.length)

/-- Loop body of `ComputationChecker::CheckComputationRewrite` for one
variable: a variable that is never accessed and whose matrix is not an
input is an error; after the first pure Read access, no later access may be
a Write or ReadWrite (`dropWhile` finds the first pure read, as the C++
index loop does). -/
def checkVariableRewrite (a : Analyzer) (v : Nat) : Except CheckErr Unit :=
  let accesses := a.variable_accesses.getD v []
  let matrix_index := (GetMatrixForVariable a.variables_ v).toNat
  if accesses = [] ∧
      (a.matrix_accesses.getD matrix_index emptyMatrixAccesses).is_input = false then
    .error .variableNeverUsedRewrite
  else
    let fromFirstRead :=
      accesses.dropWhile (fun acc => decide (acc.access_type ≠ .kReadAccess))
    if (fromFirstRead.drop 1).any
        (fun acc => decide (acc.access_type ≠ .kReadAccess)) then
      .error .variableRewritten
    else .ok ()

/-- `ComputationChecker::CheckComputationRewrite`: run the rewrite-safety
body on every variable. -/
def checkComputationRewrite (a : Analyzer) : Except CheckErr Unit :=
  checkAll (checkVariableRewrite a) (List.range a.variable_accesses.length)

/-- `ComputationChecker::Check`: the structural index check, then the
analysis pipeline, then the order, matrix-lifecycle and undefined-use
checks, and — only when `check_rewrite` is set — the rewrite-safety
check. -/
def ComputationCheckerCheck (config : CheckComputationOptions) (nnet : Nnet)
    (computation : NnetComputation) : Except CheckErr Unit := do
  checkComputationIndexes nnet computation
  let a ← AnalyzerInit nnet computation
  checkComputationOrder computation
  checkComputationMatrixAccesses a.matrix_accesses
  checkComputationUndefined a
  if config.check_rewrite then checkComputationRewrite a else pure ()

/-! ## Query helpers -/

/-- `MatrixIsAccessedBeforeCommand`: true when the matrix's first access is
not its own allocation and precedes the command, with a second look at the
next access when the first does not precede it.  The C++ `KALDI_ASSERT`s
`0 < matrix_index < size`. -/
def MatrixIsAccessedBeforeCommand (matrix_accesses : List MatrixAccesses)
    (matrix_index : Nat) (command_index : Nat) : Bool :=
  let access := matrix_accesses.getD matrix_index emptyMatrixAccesses
  if access.accesses = [] then false
  else
    let first_command := (access.accesses.headD default).command_index
    if (first_command : Int) ≠ access.allocate_command ∧
        first_command < command_index then
      true
    else if (first_command : Int) ≠ access.allocate_command ∧
        1 < access.accesses.length ∧
        (access.accesses.getD 1 default).command_index < command_index then
      true
    else false

/-! ## Concrete example programs used as witnesses -/

/-- Two 2x2 matrices plus the null matrix. -/
def exampleMatrices : List MatrixInfo := [⟨0, 0⟩, ⟨2, 2⟩, ⟨2, 2⟩]

/-- The null view and one whole-matrix view of each matrix. -/
def exampleSubmatrices : List SubMatrixInfo :=
  [⟨0, 0, 0, 0, 0⟩, ⟨1, 0, 2, 0, 2⟩, ⟨2, 0, 2, 0, 2⟩]

/-- A network with no components or nodes (none of the example programs
reference components). -/
def emptyNnet : Nnet := ⟨[], []⟩

/-- Allocate both matrices, copy m1 to m2, copy m2 back onto m1 (so variable
v0 is read at command 2 and then overwritten at command 3), pass marker,
deallocate.  Passes every check except rewrite-safety. -/
def exampleRewriteComputation : NnetComputation :=
  { matrices := exampleMatrices
    submatrices := exampleSubmatrices
    commands :=
      [⟨.kAllocMatrixZeroed, 1, -1, -1, -1, -1, -1⟩,
       ⟨.kAllocMatrixZeroed, 2, -1, -1, -1, -1, -1⟩,
       ⟨.kMatrixCopy, 2, 1, -1, -1, -1, -1⟩,
       ⟨.kMatrixCopy, 1, 2, -1, -1, -1, -1⟩,
       ⟨.kNoOperationMarker, -1, -1, -1, -1, -1, -1⟩,
       ⟨.kDeallocMatrix, 1, -1, -1, -1, -1, -1⟩,
       ⟨.kDeallocMatrix, 2, -1, -1, -1, -1, -1⟩]
    indexes := []
    indexes_multi := []
    indexes_ranges := []
    component_precomputed_indexes := 0
    input_output_info := [] }

/-- One gather-rows copy command with an index list free of the `-1`
sentinel. -/
def exampleCopyComputationW : NnetComputation :=
  { matrices := exampleMatrices
    submatrices := exampleSubmatrices
    commands := [⟨.kCopyRows, 1, 2, 0, -1, -1, -1⟩]
    indexes := [[0, 1]]
    indexes_multi := []
    indexes_ranges := []
    component_precomputed_indexes := 0
    input_output_info := [] }

/-- The same program with one index entry changed to the `-1` sentinel. -/
def exampleCopyComputationRW : NnetComputation :=
  { exampleCopyComputationW with indexes := [[0, -1]] }

/-- One scatter-rows-multi command whose pair list repeats the non-sentinel
target (view 1, row 0). -/
def exampleScatterComputation : NnetComputation :=
  { matrices := exampleMatrices
    submatrices := exampleSubmatrices
    commands := [⟨.kCopyToRowsMulti, 2, 0, -1, -1, -1, -1⟩]
    indexes := []
    indexes_multi := [[(1, 0), (1, 0)]]
    indexes_ranges := []
    component_precomputed_indexes := 0
    input_output_info := [] }

/-- A network whose single node holds a component with an all-zero property
bitset. -/
def exampleBackpropNnetZero : Nnet := ⟨[⟨0, 2, 2⟩], [.component 0]⟩

/-- A network whose single node holds a component with only the
simple-component bit set — in particular the updatable bit is clear. -/
def exampleBackpropNnetSimple : Nnet := ⟨[⟨1, 2, 2⟩], [.component 0]⟩

/-- A backprop command whose in-derivative operand (`arg6`) is the null
view. -/
def exampleBackpropCommand : Command := ⟨.kBackprop, 0, 0, 1, 2, 2, 0⟩

/-! ## Claim C9: query "is buffer touched strictly before instruction" -/

/-- C9: `MatrixIsAccessedBeforeCommand` returns true exactly when the
buffer's access history is non-empty, its first recorded access is not its
own allocation instruction, and either that first access precedes the given
command or — the two-access lookahead — the history has a second access
whose index precedes the command; in particular it returns false on an
empty history. -/
theorem MatrixIsAccessedBeforeCommand_spec
    (matrix_accesses : List MatrixAccesses) (matrix_index command_index : Nat) :
    MatrixIsAccessedBeforeCommand matrix_accesses matrix_index command_index = true ↔
      ((matrix_accesses.getD matrix_index emptyMatrixAccesses).accesses ≠ [] ∧
       ((((matrix_accesses.getD matrix_index emptyMatrixAccesses).accesses.headD
            default).command_index : Int) ≠
         (matrix_accesses.getD matrix_index emptyMatrixAccesses).allocate_command) ∧
       (((matrix_accesses.getD matrix_index emptyMatrixAccesses).accesses.headD
           default).command_index < command_index ∨
        (1 < (matrix_accesses.getD matrix_index emptyMatrixAccesses).accesses.length ∧
         ((matrix_accesses.getD matrix_index emptyMatrixAccesses).accesses.getD 1
            default).command_index < command_index))) := by
  simp only [MatrixIsAccessedBeforeCommand]
  split_ifs with h1 h2 h3
  · simp only [false_iff]
    rintro ⟨hne, -, -⟩
    exact hne h1
  · simp only [true_iff]
    exact ⟨h1, h2.1, Or.inl h2.2⟩
  · simp only [true_iff]
    exact ⟨h1, h3.1, Or.inr ⟨h3.2.1, h3.2.2⟩⟩
  · simp only [false_iff]
    rintro ⟨hne, hfa, hlt | ⟨hlen, hsec⟩⟩
    · exact h2 ⟨hfa, hlt⟩
    · exact h3 ⟨hfa, hlen, hsec⟩

/-! ## Claim C6: buffer lifecycle check -/

set_option maxHeartbeats 1000000 in
/-- Characterization of the per-matrix lifecycle check. -/
theorem checkMatrixAccessRecord_ok_iff (acc : MatrixAccesses) :
    checkMatrixAccessRecord acc = .ok () ↔
      ((acc.is_input = true → acc.allocate_command = -1) ∧
       (acc.is_input = false →
         acc.allocate_command ≠ -1 ∧ acc.accesses ≠ [] ∧
         ¬(((acc.accesses.headD default).command_index : Int) < acc.allocate_command)) ∧
       (acc.is_output = true → acc.deallocate_command = -1) ∧
       (acc.is_output = false →
         acc.deallocate_command ≠ -1 ∧
         (acc.accesses = [] → acc.is_input = true) ∧
         (acc.accesses ≠ [] →
           ¬(((acc.accesses.getLastD default).command_index : Int) ≥
             acc.deallocate_command)))) := by
  cases hin : acc.is_input <;> cases hout : acc.is_output <;>
    simp only [checkMatrixAccessRecord, hin, hout] <;>
    split_ifs <;>
    simp_all

/-- C6: the buffer lifecycle check passes exactly when, for every non-null
buffer: an input-flagged buffer has no allocation instruction; a non-input
buffer has an allocation instruction, a non-empty access history, and its
first access does not precede its allocation; an output-flagged buffer has
no deallocation instruction; and a non-output buffer has a deallocation
instruction, its last access (when any) strictly precedes its deallocation,
and an empty access history is tolerated exactly when the buffer is also an
input (in which case the C++ only warns, once per process). -/
theorem checkComputationMatrixAccesses_spec (matrix_accesses : List MatrixAccesses) :
    checkComputationMatrixAccesses matrix_accesses = .ok () ↔
      ∀ m, 1 ≤ m → m < matrix_accesses.length →
        (((matrix_accesses.getD m emptyMatrixAccesses).is_input = true →
            (matrix_accesses.getD m emptyMatrixAccesses).allocate_command = -1) ∧
         ((matrix_accesses.getD m emptyMatrixAccesses).is_input = false →
            (matrix_accesses.getD m emptyMatrixAccesses).allocate_command ≠ -1 ∧
            (matrix_accesses.getD m emptyMatrixAccesses).accesses ≠ [] ∧
            ¬((((matrix_accesses.getD m emptyMatrixAccesses).accesses.headD
                  default).command_index : Int) <
              (matrix_accesses.getD m emptyMatrixAccesses).allocate_command)) ∧
         ((matrix_accesses.getD m emptyMatrixAccesses).is_output = true →
            (matrix_accesses.getD m emptyMatrixAccesses).deallocate_command = -1) ∧
         ((matrix_accesses.getD m emptyMatrixAccesses).is_output = false →
            (matrix_accesses.getD m emptyMatrixAccesses).deallocate_command ≠ -1 ∧
            ((matrix_accesses.getD m emptyMatrixAccesses).accesses = [] →
              (matrix_accesses.getD m emptyMatrixAccesses).is_input = true) ∧
            ((matrix_accesses.getD m emptyMatrixAccesses).accesses ≠ [] →
              ¬((((matrix_accesses.getD m emptyMatrixAccesses).accesses.getLastD
                  default).command_index : Int) ≥
                (matrix_accesses.getD m emptyMatrixAccesses).deallocate_command)))) := by
  unfold checkComputationMatrixAccesses
  rw [checkAll_ok_iff]
  constructor
  · intro h m hm1 hm2
    have hmem : m ∈ List.range' 1 (matrix_accesses.length - 1) := by
      rw [List.mem_range'_1]
      omega
    exact (checkMatrixAccessRecord_ok_iff _).mp (h m hmem)
  · intro h m hmem
    rw [List.mem_range'_1] at hmem
    exact (checkMatrixAccessRecord_ok_iff _).mpr (h m hmem.1 (by omega))

/-! ## Claim C5: ordering check -/

theorem foldl_pick_const {P : Nat → Prop} [DecidablePred P] (l : List Nat)
    (init : Nat) (h : ∀ x ∈ l, P x → x = init) :
    l.foldl (fun acc ci => if P ci then ci else acc) init = init := by
  induction l generalizing init with
  | nil => rfl
  | cons a t ih =>
    simp only [List.foldl_cons]
    by_cases hpa : P a
    · have ha : a = init := h a (List.mem_cons_self a t) hpa
      rw [if_pos hpa, ha]
      exact ih init (fun x hx => h x (List.mem_cons_of_mem a hx))
    · rw [if_neg hpa]
      exact ih init (fun x hx => h x (List.mem_cons_of_mem a hx))

theorem foldl_pick_unique {P : Nat → Prop} [DecidablePred P] (l : List Nat)
    (init m : Nat) (hm : m ∈ l) (hpm : P m)
    (huniq : ∀ x ∈ l, P x → x = m) :
    l.foldl (fun acc ci => if P ci then ci else acc) init = m := by
  induction l generalizing init with
  | nil => cases hm
  | cons a t ih =>
    simp only [List.foldl_cons]
    by_cases hpa : P a
    · have ha : a = m := huniq a (List.mem_cons_self a t) hpa
      rw [if_pos hpa, ha]
      exact foldl_pick_const t m (fun x hx hpx => huniq x (List.mem_cons_of_mem a hx) hpx)
    · rw [if_neg hpa]
      have hmt : m ∈ t := by
        rcases List.mem_cons.mp hm with rfl | h
        · exact absurd hpm hpa
        · exact h
      exact ih init hmt (fun x hx => huniq x (List.mem_cons_of_mem a hx))

theorem filter_length_one_iff {α : Type} (p : α → Bool) (l : List α)
    (hl : l.Nodup) :
    (l.filter p).length = 1 ↔
      ∃ m ∈ l, p m = true ∧ ∀ x ∈ l, p x = true → x = m := by
  rw [List.length_eq_one]
  constructor
  · rintro ⟨m, hm⟩
    have hmem : m ∈ l.filter p := by rw [hm]; exact List.mem_singleton_self m
    refine ⟨m, (List.mem_filter.mp hmem).1, (List.mem_filter.mp hmem).2, ?_⟩
    intro x hx hpx
    have hxf : x ∈ l.filter p := List.mem_filter.mpr ⟨hx, hpx⟩
    rw [hm] at hxf
    exact List.mem_singleton.mp hxf
  · rintro ⟨m, hml, hpm, huniq⟩
    have hmf : m ∈ l.filter p := List.mem_filter.mpr ⟨hml, hpm⟩
    have hnf : (l.filter p).Nodup := hl.filter p
    have hall : ∀ x ∈ l.filter p, x = m := fun x hx =>
      huniq x (List.mem_filter.mp hx).1 (List.mem_filter.mp hx).2
    cases hf : l.filter p with
    | nil => rw [hf] at hmf; cases hmf
    | cons a t =>
      rw [hf] at hall hnf hmf
      have ham : a = m := hall a (List.mem_cons_self a t)
      have ht : t = [] := by
        cases t with
        | nil => rfl
        | cons b t2 =>
          have hbm : b = m := hall b (by simp)
          have hnd := List.nodup_cons.mp hnf
          exact absurd (ham.trans hbm.symm ▸ List.mem_cons_self b t2) hnd.1
      subst ht
      exact ⟨a, rfl⟩

theorem orderBody_ok_iff (m ci : Nat) (t : CommandType) :
    ((if ci ≠ m ∧ t = .kNoOperationMarker then
        (.error .markerUnexpectedPlace : Except CheckErr Unit)
      else if ci < m ∧ t = .kBackprop then .error .backpropBeforeMarker
      else if ci > m ∧ t = .kPropagate then .error .propagateAfterMarker
      else if ci > m ∧ t = .kStoreStats then .error .storeStatsAfterMarker
      else .ok ()) = .ok ()) ↔
      (¬(ci ≠ m ∧ t = .kNoOperationMarker) ∧ ¬(ci < m ∧ t = .kBackprop) ∧
       ¬(ci > m ∧ t = .kPropagate) ∧ ¬(ci > m ∧ t = .kStoreStats)) := by
  split_ifs with h1 h2 h3 h4 <;> simp_all

/-- C5: the ordering check passes exactly when the program has exactly one
pass-marker instruction, no Backprop instruction before it, and no
Propagate or StoreStats instruction after it; under any violation of those
three conditions it raises a fatal error. -/
theorem checkComputationOrder_spec (computation : NnetComputation) :
    checkComputationOrder computation = .ok () ↔
      ∃ mloc, mloc < computation.commands.length ∧
        (computation.commands.getD mloc default).command_type = .kNoOperationMarker ∧
        (∀ i, i < computation.commands.length → i ≠ mloc →
          (computation.commands.getD i default).command_type ≠ .kNoOperationMarker) ∧
        (∀ i, i < mloc →
          (computation.commands.getD i default).command_type ≠ .kBackprop) ∧
        (∀ i, mloc < i → i < computation.commands.length →
          (computation.commands.getD i default).command_type ≠ .kPropagate ∧
          (computation.commands.getD i default).command_type ≠ .kStoreStats) := by
  simp only [checkComputationOrder]
  split_ifs with hnm
  · constructor
    · intro h; cases h
    · rintro ⟨mloc, hlen, hmark, huniq, -, -⟩
      exact absurd
        ((filter_length_one_iff _ _ (List.nodup_range _)).mpr
          ⟨mloc, List.mem_range.mpr hlen, decide_eq_true hmark,
           fun x hx hpx => by
             by_contra hne
             exact huniq x (List.mem_range.mp hx) hne (of_decide_eq_true hpx)⟩)
        hnm
  · push_neg at hnm
    obtain ⟨m, hml, hpm, huniq⟩ :=
      (filter_length_one_iff _ _ (List.nodup_range _)).mp hnm
    have hpm' : (computation.commands.getD m default).command_type =
        .kNoOperationMarker := of_decide_eq_true hpm
    have hmlt : m < computation.commands.length := List.mem_range.mp hml
    have hmarker : markerLocation computation = m := by
      unfold markerLocation
      exact foldl_pick_unique _ 0 m hml hpm'
        (fun x hx hpx => huniq x hx (decide_eq_true hpx))
    rw [hmarker, checkAll_ok_iff]
    constructor
    · intro h
      refine ⟨m, hmlt, hpm', ?_, ?_, ?_⟩
      · intro i hi hne
        intro hmk
        have hb := (orderBody_ok_iff m i _).mp (h i (List.mem_range.mpr hi))
        exact hb.1 ⟨hne, hmk⟩
      · intro i hi
        intro hbp
        have hilen : i < computation.commands.length := lt_trans hi hmlt
        have hb := (orderBody_ok_iff m i _).mp (h i (List.mem_range.mpr hilen))
        exact hb.2.1 ⟨hi, hbp⟩
      · intro i hmi hilen
        have hb := (orderBody_ok_iff m i _).mp (h i (List.mem_range.mpr hilen))
        exact ⟨fun hp => hb.2.2.1 ⟨hmi, hp⟩, fun hs => hb.2.2.2 ⟨hmi, hs⟩⟩
    · rintro ⟨mloc, hlen, hmark, huniq2, hbp, hafter⟩
      have hmeq : mloc = m := huniq mloc (List.mem_range.mpr hlen) (decide_eq_true hmark)
      subst hmeq
      intro ci hci
      have hcilen : ci < computation.commands.length := List.mem_range.mp hci
      refine (orderBody_ok_iff mloc ci _).mpr ⟨?_, ?_, ?_, ?_⟩
      · rintro ⟨hne, hmk⟩
        exact huniq2 ci hcilen hne hmk
      · rintro ⟨hlt, hb⟩
        exact hbp ci hlt hb
      · rintro ⟨hgt, hp⟩
        exact (hafter ci hgt hcilen).1 hp
      · rintro ⟨hgt, hs⟩
        exact (hafter ci hgt hcilen).2 hs

/-! ## Claim C2: recording a Write access for a view -/

/-- C2: for a non-null view, recording a Write access appends the view's
variable range to the write set, its view index to the written-views set and
its buffer to the write-buffer set; the variable range is additionally
appended to the read set exactly when the view is not a full-row view, and
the buffer is additionally appended to the read-buffer set exactly when the
view is not the buffer's whole extent; the read-views set is untouched, so
the view itself is recorded only as written, never as read. -/
theorem recordWriteAccess_spec (vars : ComputationVariables)
    (ca : CommandAttributes) (s : Int) (hs : s ≠ 0) :
    ((∀ v, v ∈ (RecordAccessForSubmatrix vars s .kWriteAccess ca).variables_written ↔
        (v ∈ ca.variables_written ∨ v ∈ AppendVariablesForSubmatrix vars s [])) ∧
     (∀ x, x ∈ (RecordAccessForSubmatrix vars s .kWriteAccess ca).matrices_written ↔
        (x ∈ ca.matrices_written ∨ x = vars.submatrix_to_matrix.getD s.toNat 0)) ∧
     (∀ x, x ∈ (RecordAccessForSubmatrix vars s .kWriteAccess ca).submatrices_written ↔
        (x ∈ ca.submatrices_written ∨ x = s)) ∧
     (∀ v, v ∈ (RecordAccessForSubmatrix vars s .kWriteAccess ca).variables_read ↔
        (v ∈ ca.variables_read ∨
         (vars.full_column_range.getD s.toNat false = false ∧
          v ∈ AppendVariablesForSubmatrix vars s []))) ∧
     (∀ x, x ∈ (RecordAccessForSubmatrix vars s .kWriteAccess ca).matrices_read ↔
        (x ∈ ca.matrices_read ∨
         (vars.submatrix_is_whole_matrix.getD s.toNat false = false ∧
          x = vars.submatrix_to_matrix.getD s.toNat 0))) ∧
     (RecordAccessForSubmatrix vars s .kWriteAccess ca).submatrices_read =
       ca.submatrices_read) := by
  simp only [RecordAccessForSubmatrix, if_neg hs]
  by_cases hfull : vars.full_column_range.getD s.toNat false = false <;>
    by_cases hwhole : vars.submatrix_is_whole_matrix.getD s.toNat false = false <;>
    simp_all [AppendVariablesForSubmatrix, List.mem_append]

/-- Witness for C2 at a concrete view of a concrete program: the read-views
set is untouched by a pure Write record. -/
theorem recordWriteAccess_spec_witness :
    (RecordAccessForSubmatrix (initComputationVariables exampleRewriteComputation) 1
       .kWriteAccess emptyAttributes).submatrices_read =
      emptyAttributes.submatrices_read :=
  (recordWriteAccess_spec (initComputationVariables exampleRewriteComputation)
     emptyAttributes 1 (by decide)).2.2.2.2.2

/-! ## Claim C3: gather-rows copy classification -/

theorem record_read_fields (vars : ComputationVariables) (s : Int)
    (ca : CommandAttributes) (hs : s ≠ 0) :
    (RecordAccessForSubmatrix vars s .kReadAccess ca).submatrices_read =
      ca.submatrices_read ++ [s] ∧
    (RecordAccessForSubmatrix vars s .kReadAccess ca).submatrices_written =
      ca.submatrices_written := by
  simp [RecordAccessForSubmatrix, if_neg hs]

theorem record_write_fields (vars : ComputationVariables) (s : Int)
    (ca : CommandAttributes) (hs : s ≠ 0) :
    (RecordAccessForSubmatrix vars s .kWriteAccess ca).submatrices_read =
      ca.submatrices_read ∧
    (RecordAccessForSubmatrix vars s .kWriteAccess ca).submatrices_written =
      ca.submatrices_written ++ [s] := by
  simp only [RecordAccessForSubmatrix, if_neg hs]
  split_ifs <;> simp

theorem record_rw_fields (vars : ComputationVariables) (s : Int)
    (ca : CommandAttributes) (hs : s ≠ 0) :
    (RecordAccessForSubmatrix vars s .kReadWriteAccess ca).submatrices_read =
      ca.submatrices_read ++ [s] ∧
    (RecordAccessForSubmatrix vars s .kReadWriteAccess ca).submatrices_written =
      ca.submatrices_written ++ [s] := by
  simp [RecordAccessForSubmatrix, if_neg hs]

/-- C3: a gather-rows copy command (`kCopyRows`) records its destination
view as written, its source view as read, and records the destination as
also read — i.e. classifies it ReadWrite instead of pure Write — exactly
when the index list contains the `-1` "no source" sentinel; and on two
concrete programs identical except for one index entry turned into the
sentinel, the computed attributes differ exactly by the destination flip
(destination variables, view and buffer additionally appearing in the read
sets). -/
theorem copyRows_classification :
    (∀ (nnet : Nnet) (computation : NnetComputation) (vars : ComputationVariables)
       (c : Command), c.command_type = .kCopyRows → c.arg1 ≠ 0 → c.arg2 ≠ 0 →
       c.arg1 ≠ c.arg2 →
       (c.arg2 ∈ (ComputeCommandAttributesFor nnet computation vars c).submatrices_read ∧
        c.arg1 ∈ (ComputeCommandAttributesFor nnet computation vars c).submatrices_written ∧
        (c.arg1 ∈ (ComputeCommandAttributesFor nnet computation vars c).submatrices_read ↔
          (-1) ∈ computation.indexes.getD c.arg3.toNat []))) ∧
    (ComputeCommandAttributesFor emptyNnet exampleCopyComputationW
       (initComputationVariables exampleCopyComputationW)
       ⟨.kCopyRows, 1, 2, 0, -1, -1, -1⟩ =
       ⟨[1], [0], [2], [1], [2], [1], false⟩) ∧
    (ComputeCommandAttributesFor emptyNnet exampleCopyComputationRW
       (initComputationVariables exampleCopyComputationRW)
       ⟨.kCopyRows, 1, 2, 0, -1, -1, -1⟩ =
       ⟨[0, 1], [0], [1, 2], [1], [1, 2], [1], false⟩) := by
  refine ⟨?_, by decide, by decide⟩
  intro nnet computation vars c htype h1 h2 hne
  simp only [ComputeCommandAttributesFor, htype]
  simp only [sortAttributes, mem_sortAndUniq]
  by_cases hcount : 0 < (computation.indexes.getD c.arg3.toNat []).count (-1)
  · rw [if_pos hcount]
    have ha1 := record_rw_fields vars c.arg1 emptyAttributes h1
    have ha2 := record_read_fields vars c.arg2
      (RecordAccessForSubmatrix vars c.arg1 .kReadWriteAccess emptyAttributes) h2
    rw [ha2.1, ha2.2, ha1.1, ha1.2]
    refine ⟨by simp, by simp, ⟨fun _ => List.count_pos_iff.mp hcount, fun _ => by simp⟩⟩
  · rw [if_neg hcount]
    have ha1 := record_write_fields vars c.arg1 emptyAttributes h1
    have ha2 := record_read_fields vars c.arg2
      (RecordAccessForSubmatrix vars c.arg1 .kWriteAccess emptyAttributes) h2
    rw [ha2.1, ha2.2, ha1.1, ha1.2]
    refine ⟨by simp, by simp, ⟨fun hmem => ?_, fun hmem => ?_⟩⟩
    · have : c.arg1 = c.arg2 := by
        simpa [emptyAttributes] using hmem
      exact absurd this hne
    · exact absurd (List.count_pos_iff.mpr hmem) hcount

/-- Witness for C3: the source view of the concrete sentinel-free program is
recorded as read. -/
theorem copyRows_classification_witness :
    (2 : Int) ∈ (ComputeCommandAttributesFor emptyNnet exampleCopyComputationW
      (initComputationVariables exampleCopyComputationW)
      ⟨.kCopyRows, 1, 2, 0, -1, -1, -1⟩).submatrices_read :=
  (copyRows_classification.1 emptyNnet exampleCopyComputationW
    (initComputationVariables exampleCopyComputationW)
    ⟨.kCopyRows, 1, 2, 0, -1, -1, -1⟩ rfl (by decide) (by decide) (by decide)).1

/-! ## Claim C4: scatter-rows-multi classification -/

theorem mem_indexesMultiLoop (l : List (Int × Int)) :
    ∀ (cur x : Int), x ≠ -1 →
      ((x ∈ indexesMultiLoop l cur ∨ x = cur) ↔ (x ∈ l.map Prod.fst ∨ x = cur)) := by
  induction l with
  | nil => intro cur x hx; simp [indexesMultiLoop]
  | cons p rest ih =>
    intro cur x hx
    by_cases hp : p.1 ≠ -1 ∧ p.1 ≠ cur
    · rw [indexesMultiLoop, if_pos hp]
      have := ih p.1 x hx
      simp only [List.mem_cons, List.map_cons] at *
      constructor
      · rintro ((hx1 | hx2) | hcur)
        · exact Or.inl (Or.inl hx1)
        · rcases this.mp (Or.inl hx2) with h | h
          · exact Or.inl (Or.inr h)
          · exact Or.inl (Or.inl h)
        · exact Or.inr hcur
      · rintro ((hx1 | hx2) | hcur)
        · exact Or.inl (Or.inl hx1)
        · rcases this.mpr (Or.inl hx2) with h | h
          · exact Or.inl (Or.inr h)
          · exact Or.inl (Or.inl h)
        · exact Or.inr hcur
    · rw [indexesMultiLoop, if_neg hp]
      push_neg at hp
      have := ih cur x hx
      simp only [List.map_cons, List.mem_cons]
      rw [this]
      by_cases hpe : p.1 = -1
      · constructor
        · rintro (h | h)
          · exact Or.inl (Or.inr h)
          · exact Or.inr h
        · rintro ((h | h) | h)
          · exact absurd (h ▸ hpe) hx
          · exact Or.inl h
          · exact Or.inr h
      · have hpc : p.1 = cur := hp hpe
        constructor
        · rintro (h | h)
          · exact Or.inl (Or.inr h)
          · exact Or.inr h
        · rintro ((h | h) | h)
          · exact Or.inr (h ▸ hpc)
          · exact Or.inl h
          · exact Or.inr h

theorem neg_one_not_mem_indexesMultiLoop (l : List (Int × Int)) :
    ∀ cur : Int, (-1 : Int) ∉ indexesMultiLoop l cur := by
  induction l with
  | nil => intro cur; simp [indexesMultiLoop]
  | cons p rest ih =>
    intro cur
    by_cases hp : p.1 ≠ -1 ∧ p.1 ≠ cur
    · rw [indexesMultiLoop, if_pos hp]
      intro hmem
      rcases List.mem_cons.mp hmem with h | h
      · exact hp.1 h.symm
      · exact ih p.1 h
    · rw [indexesMultiLoop, if_neg hp]
      exact ih cur

theorem mem_IndexesMultiToSubmatrixIndexes (pairs : List (Int × Int)) (x : Int) :
    x ∈ IndexesMultiToSubmatrixIndexes pairs ↔
      (x ≠ -1 ∧ x ∈ pairs.map Prod.fst) := by
  rw [IndexesMultiToSubmatrixIndexes, mem_sortAndUniq]
  by_cases hx : x = -1
  · subst hx
    simp [neg_one_not_mem_indexesMultiLoop pairs (-1)]
  · have h := mem_indexesMultiLoop pairs (-1) x hx
    simp only [hx, or_false] at h
    rw [h]
    simp [hx]

theorem foldRecordRW_fields (vars : ComputationVariables) (ds : List Int)
    (hds : ∀ d ∈ ds, d ≠ 0) :
    ∀ (a : CommandAttributes),
      (ds.foldl (fun a s => RecordAccessForSubmatrix vars s .kReadWriteAccess a)
        a).submatrices_read = a.submatrices_read ++ ds ∧
      (ds.foldl (fun a s => RecordAccessForSubmatrix vars s .kReadWriteAccess a)
        a).submatrices_written = a.submatrices_written ++ ds := by
  induction ds with
  | nil => intro a; simp
  | cons d rest ih =>
    intro a
    have hd : d ≠ 0 := hds d (List.mem_cons_self d rest)
    have hrest : ∀ x ∈ rest, x ≠ 0 := fun x hx => hds x (List.mem_cons_of_mem d hx)
    simp only [List.foldl_cons]
    have hr := record_rw_fields vars d a hd
    obtain ⟨h1, h2⟩ := (ih hrest) (RecordAccessForSubmatrix vars d .kReadWriteAccess a)
    rw [h1, h2, hr.1, hr.2]
    simp

/-- Core of the scatter-rows-multi classification, shared by the two
variants: the command's own view is recorded as read, and every distinct
non-sentinel destination view of the pair list is recorded both read and
written. -/
theorem scatterCore (vars : ComputationVariables) (arg1 : Int)
    (pairs : List (Int × Int)) (h1 : arg1 ≠ 0) (hp : ∀ p ∈ pairs, p.1 ≠ 0) :
    (∀ x, x ∈ (sortAttributes
        ((IndexesMultiToSubmatrixIndexes pairs).foldl
          (fun a s => RecordAccessForSubmatrix vars s .kReadWriteAccess a)
          (RecordAccessForSubmatrix vars arg1 .kReadAccess
            emptyAttributes))).submatrices_written ↔
      (x ≠ -1 ∧ x ∈ pairs.map Prod.fst)) ∧
    (∀ x, x ∈ (sortAttributes
        ((IndexesMultiToSubmatrixIndexes pairs).foldl
          (fun a s => RecordAccessForSubmatrix vars s .kReadWriteAccess a)
          (RecordAccessForSubmatrix vars arg1 .kReadAccess
            emptyAttributes))).submatrices_read ↔
      (x = arg1 ∨ (x ≠ -1 ∧ x ∈ pairs.map Prod.fst))) := by
  have hds : ∀ d ∈ IndexesMultiToSubmatrixIndexes pairs, d ≠ 0 := by
    intro d hd
    obtain ⟨-, hdm⟩ := (mem_IndexesMultiToSubmatrixIndexes pairs d).mp hd
    obtain ⟨q, hq, hq1⟩ := List.mem_map.mp hdm
    exact hq1 ▸ hp q hq
  have hfold := foldRecordRW_fields vars (IndexesMultiToSubmatrixIndexes pairs) hds
    (RecordAccessForSubmatrix vars arg1 .kReadAccess emptyAttributes)
  have hread := record_read_fields vars arg1 emptyAttributes h1
  constructor
  · intro x
    simp only [sortAttributes, mem_sortAndUniq]
    rw [hfold.2, hread.2]
    simp only [emptyAttributes, List.nil_append, List.mem_append, List.not_mem_nil,
      false_or]
    exact mem_IndexesMultiToSubmatrixIndexes pairs x
  · intro x
    simp only [sortAttributes, mem_sortAndUniq]
    rw [hfold.1, hread.1]
    simp only [emptyAttributes, List.nil_append, List.mem_append,
      List.mem_singleton]
    rw [mem_IndexesMultiToSubmatrixIndexes pairs x]

/-- C4: a scatter-rows-multi command (either variant) records its own view
operand as read, records exactly the distinct non-sentinel destination
views of its pair list as written — each of them also as read, so never as
a pure Write — and the recorded written-view list is deduplicated;
sentinel pairs contribute no access. -/
theorem scatterRowsMulti_classification :
    ∀ (nnet : Nnet) (computation : NnetComputation) (vars : ComputationVariables)
      (c : Command),
      (c.command_type = .kAddToRowsMulti ∨ c.command_type = .kCopyToRowsMulti) →
      c.arg1 ≠ 0 →
      (∀ p ∈ computation.indexes_multi.getD c.arg2.toNat [], p.1 ≠ 0) →
      ((∀ x, x ∈ (ComputeCommandAttributesFor nnet computation vars c).submatrices_written ↔
          (x ≠ -1 ∧
           x ∈ (computation.indexes_multi.getD c.arg2.toNat []).map Prod.fst)) ∧
       (∀ x, x ∈ (ComputeCommandAttributesFor nnet computation vars c).submatrices_read ↔
          (x = c.arg1 ∨
           (x ≠ -1 ∧
            x ∈ (computation.indexes_multi.getD c.arg2.toNat []).map Prod.fst))) ∧
       (∀ x, x ∈ (ComputeCommandAttributesFor nnet computation vars c).submatrices_written →
          x ∈ (ComputeCommandAttributesFor nnet computation vars c).submatrices_read) ∧
       (ComputeCommandAttributesFor nnet computation vars c).submatrices_written.Nodup) := by
  intro nnet computation vars c htype h1 hp
  have hcore := scatterCore vars c.arg1
    (computation.indexes_multi.getD c.arg2.toNat []) h1 hp
  rcases htype with htype | htype <;>
    simp only [ComputeCommandAttributesFor, htype] <;>
    exact ⟨hcore.1, hcore.2,
      fun x hx => (hcore.2 x).mpr (Or.inr ((hcore.1 x).mp hx)),
      sortAndUniq_nodup _⟩

/-- Witness for C4 at the concrete scatter program: view 1 (named twice in
the pair list) is recorded as written, and the written list is
deduplicated. -/
theorem scatterRowsMulti_classification_witness :
    (1 : Int) ∈ (ComputeCommandAttributesFor emptyNnet exampleScatterComputation
      (initComputationVariables exampleScatterComputation)
      ⟨.kCopyToRowsMulti, 2, 0, -1, -1, -1, -1⟩).submatrices_written :=
  ((scatterRowsMulti_classification emptyNnet exampleScatterComputation
    (initComputationVariables exampleScatterComputation)
    ⟨.kCopyToRowsMulti, 2, 0, -1, -1, -1, -1⟩ (Or.inr rfl) (by decide)
    (by decide)).1 1).mpr (by decide)

/-! ## Claim C8: scatter duplicate-target check -/

theorem pairLe_refl (p : Int × Int) : pairLe p p :=
  Or.inr ⟨rfl, le_refl _⟩

theorem adjacentDupOk_sorted_iff (l : List (Int × Int)) (hs : l.Sorted pairLe) :
    adjacentDupOk l = true ↔
      ∀ p : Int × Int, p.1 ≠ -1 → l.count p ≤ 1 := by
  induction l with
  | nil => simp [adjacentDupOk]
  | cons a rest ih =>
    cases rest with
    | nil =>
      simp only [adjacentDupOk, true_iff]
      intro p hp
      exact (List.count_le_length p [a]).trans (by simp)
    | cons b rest2 =>
      have hsorted_tail : (b :: rest2).Sorted pairLe := (List.sorted_cons.mp hs).2
      have hab : pairLe a b := (List.sorted_cons.mp hs).1 b (List.mem_cons_self b rest2)
      by_cases hdup : a = b ∧ a.1 ≠ -1
      · rw [adjacentDupOk, if_pos hdup]
        refine iff_of_false (by simp) ?_
        intro hall
        have h1 := hall a hdup.2
        rw [List.count_cons_self, ← hdup.1, List.count_cons_self] at h1
        omega
      · rw [adjacentDupOk, if_neg hdup]
        rw [ih hsorted_tail]
        constructor
        · intro h p hp
          by_cases hpa : p = a
          · subst hpa
            have hcz : (b :: rest2).count p = 0 := by
              rw [List.count_eq_zero]
              intro hmem
              have hba : pairLe b p := by
                rcases List.mem_cons.mp hmem with rfl | hmem2
                · exact pairLe_refl p
                · exact (List.sorted_cons.mp hsorted_tail).1 p hmem2
              exact hdup ⟨pairLe_antisymm hab hba, hp⟩
            rw [List.count_cons_self, hcz]
          · rw [List.count_cons_of_ne hpa]
            exact h p hp
        · intro h p hp
          have hc := h p hp
          by_cases hpa : p = a
          · subst hpa
            rw [List.count_cons_self] at hc
            omega
          · rw [List.count_cons_of_ne hpa] at hc
            exact hc

/-- The scatter duplicate-target check passes exactly when no non-sentinel
pair occurs twice in the pair list. -/
theorem checkMultiDuplicates_ok_iff (pairs : List (Int × Int)) :
    checkMultiDuplicates pairs = .ok () ↔
      ¬∃ p : Int × Int, p.1 ≠ -1 ∧ 2 ≤ pairs.count p := by
  unfold checkMultiDuplicates
  have hsorted : (sortPairs pairs).Sorted pairLe :=
    List.sorted_insertionSort pairLe pairs
  have hperm : ∀ p : Int × Int, (sortPairs pairs).count p = pairs.count p :=
    fun p => (List.perm_insertionSort pairLe pairs).countP_eq _
  by_cases hok : adjacentDupOk (sortPairs pairs) = true
  · rw [if_pos hok]
    refine iff_of_true rfl ?_
    rintro ⟨p, hp, hcount⟩
    have hle := (adjacentDupOk_sorted_iff _ hsorted).mp hok p hp
    rw [hperm p] at hle
    omega
  · rw [if_neg hok]
    refine iff_of_false (by simp) ?_
    have hex := (adjacentDupOk_sorted_iff _ hsorted).not.mp hok
    push_neg at hex
    obtain ⟨p, hp, hcount⟩ := hex
    rw [hperm p] at hcount
    exact not_not_intro ⟨p, hp, by omega⟩

theorem checkMultiPair_ne_dup (computation : NnetComputation) (arg1 : Int)
    (num_cols : Nat) (p : Int × Int) :
    checkMultiPair computation arg1 num_cols p ≠ .error .duplicateIndexesMulti := by
  intro h
  simp only [checkMultiPair] at h
  by_cases h1 : p.1 = -1
  · rw [if_pos h1] at h
    by_cases h2 : p.2 ≠ -1
    · rw [if_pos h2] at h; exact absurd h (by simp)
    · rw [if_neg h2] at h; exact absurd h (by simp)
  · rw [if_neg h1] at h
    by_cases h2 : p.1 < 1 ∨ p.1 ≥ (computation.submatrices.length : Int)
    · rw [if_pos h2] at h; exact absurd h (by simp)
    · rw [if_neg h2] at h
      by_cases h3 : p.2 < 0 ∨
          p.2 ≥ ((computation.submatrices.getD p.1.toNat default).num_rows : Int)
      · rw [if_pos h3] at h; exact absurd h (by simp)
      · rw [if_neg h3] at h
        by_cases h4 : p.1 = arg1
        · rw [if_pos h4] at h; exact absurd h (by simp)
        · rw [if_neg h4] at h
          by_cases h5 : (computation.submatrices.getD p.1.toNat default).num_cols ≠ num_cols
          · rw [if_pos h5] at h; exact absurd h (by simp)
          · rw [if_neg h5] at h; exact absurd h (by simp)

/-- Shape of the `checkCommandIndexes` result on a scatter-rows-multi
command: one of the two range errors, a per-pair error, or the result of
the duplicate check. -/
theorem multiScatter_result (nnet : Nnet) (computation : NnetComputation)
    (c : Command)
    (htype : c.command_type = .kAddToRowsMulti ∨ c.command_type = .kCopyToRowsMulti) :
    checkCommandIndexes nnet computation c = .error .multiOutOfRange ∨
    checkCommandIndexes nnet computation c = .error .multiSizeMismatch ∨
    (∃ e, checkAll
        (checkMultiPair computation c.arg1
          (computation.submatrices.getD c.arg1.toNat default).num_cols)
        (computation.indexes_multi.getD c.arg2.toNat []) = .error e ∧
      checkCommandIndexes nnet computation c = .error e) ∨
    (checkAll
        (checkMultiPair computation c.arg1
          (computation.submatrices.getD c.arg1.toNat default).num_cols)
        (computation.indexes_multi.getD c.arg2.toNat []) = .ok () ∧
      checkCommandIndexes nnet computation c =
        checkMultiDuplicates (computation.indexes_multi.getD c.arg2.toNat [])) := by
  rcases htype with h | h <;>
    simp only [checkCommandIndexes, h] <;>
    split_ifs <;>
    first
      | exact Or.inl rfl
      | exact Or.inr (Or.inl rfl)
      | (cases hca : checkAll
            (checkMultiPair computation c.arg1
              (computation.submatrices.getD c.arg1.toNat default).num_cols)
            (computation.indexes_multi.getD c.arg2.toNat []) with
         | error e => exact Or.inr (Or.inr (Or.inl ⟨e, rfl, rfl⟩))
         | ok u =>
           cases u
           exact Or.inr (Or.inr (Or.inr ⟨rfl, rfl⟩)))
      | simp_all

/-- Shape of the `checkCommandIndexes` result on a gather-rows-multi
command: one of the two range errors, a per-pair error, or success — the
duplicate check is never consulted. -/
theorem multiGather_result (nnet : Nnet) (computation : NnetComputation)
    (c : Command)
    (htype : c.command_type = .kAddRowsMulti ∨ c.command_type = .kCopyRowsMulti) :
    checkCommandIndexes nnet computation c = .error .multiOutOfRange ∨
    checkCommandIndexes nnet computation c = .error .multiSizeMismatch ∨
    (∃ e, checkAll
        (checkMultiPair computation c.arg1
          (computation.submatrices.getD c.arg1.toNat default).num_cols)
        (computation.indexes_multi.getD c.arg2.toNat []) = .error e ∧
      checkCommandIndexes nnet computation c = .error e) ∨
    checkCommandIndexes nnet computation c = .ok () := by
  rcases htype with h | h <;>
    simp only [checkCommandIndexes, h] <;>
    split_ifs <;>
    first
      | exact Or.inl rfl
      | exact Or.inr (Or.inl rfl)
      | (cases hca : checkAll
            (checkMultiPair computation c.arg1
              (computation.submatrices.getD c.arg1.toNat default).num_cols)
            (computation.indexes_multi.getD c.arg2.toNat []) with
         | error e => exact Or.inr (Or.inr (Or.inl ⟨e, rfl, rfl⟩))
         | ok u =>
           cases u
           exact Or.inr (Or.inr (Or.inr rfl)))
      | simp_all

/-- C8: the bounds check rejects (with a fatal error) any scatter-rows-multi
command whose pair list repeats a non-sentinel pair; the duplicate check
itself fires exactly when some non-sentinel pair occurs at least twice, so
duplicated sentinel pairs are not rejected; and the gather variants are
never subjected to the duplicate check. -/
theorem scatterDuplicate_check :
    (∀ (nnet : Nnet) (computation : NnetComputation) (c : Command) (p : Int × Int),
       (c.command_type = .kAddToRowsMulti ∨ c.command_type = .kCopyToRowsMulti) →
       p.1 ≠ -1 →
       2 ≤ (computation.indexes_multi.getD c.arg2.toNat []).count p →
       checkCommandIndexes nnet computation c ≠ .ok ()) ∧
    (∀ pairs : List (Int × Int),
       checkMultiDuplicates pairs = .ok () ↔
         ¬∃ p : Int × Int, p.1 ≠ -1 ∧ 2 ≤ pairs.count p) ∧
    (∀ (nnet : Nnet) (computation : NnetComputation) (c : Command),
       (c.command_type = .kAddRowsMulti ∨ c.command_type = .kCopyRowsMulti) →
       checkCommandIndexes nnet computation c ≠ .error .duplicateIndexesMulti) := by
  refine ⟨?_, checkMultiDuplicates_ok_iff, ?_⟩
  · intro nnet computation c p htype hp hcount
    have hdup : checkMultiDuplicates (computation.indexes_multi.getD c.arg2.toNat []) ≠
        .ok () := fun hok => ((checkMultiDuplicates_ok_iff _).mp hok) ⟨p, hp, hcount⟩
    rcases multiScatter_result nnet computation c htype with
      hres | hres | ⟨e, -, hres⟩ | ⟨-, hres⟩ <;> rw [hres]
    · simp
    · simp
    · simp
    · exact hdup
  · intro nnet computation c htype
    rcases multiGather_result nnet computation c htype with
      hres | hres | ⟨e, hca, hres⟩ | hres <;> rw [hres]
    · simp
    · simp
    · obtain ⟨x, -, hx⟩ := checkAll_error _ _ e hca
      intro heq
      injection heq with he
      exact checkMultiPair_ne_dup computation c.arg1 _ x (by rw [hx, he])
    · simp

/-- Witness for C8 at a concrete scatter program whose pair list repeats
(view 1, row 0): the bounds check does not accept it. -/
theorem scatterDuplicate_check_witness :
    checkCommandIndexes emptyNnet exampleScatterComputation
      ⟨.kCopyToRowsMulti, 2, 0, -1, -1, -1, -1⟩ ≠ .ok () :=
  scatterDuplicate_check.1 emptyNnet exampleScatterComputation
    ⟨.kCopyToRowsMulti, 2, 0, -1, -1, -1, -1⟩ (1, 0) (Or.inr rfl) (by decide)
    (by decide)

/-! ## Claim C10: the "Backprop has no effect" test -/

/-- Steps an error-equation over one guard of an if-chain: if the
then-branch is an error that is not the observed one, the equation holds of
the else-branch. -/
theorem ite_skip {c : Prop} [Decidable c] {rest : Except CheckErr Unit}
    {A X : CheckErr} (hAX : A ≠ X)
    (h : (if c then (Except.error A : Except CheckErr Unit) else rest) = .error X) :
    rest = .error X := by
  by_cases hc : c
  · rw [if_pos hc] at h
    injection h with h2
    exact absurd h2 hAX
  · rwa [if_neg hc] at h

/-- If `checkCommandIndexes` reports "Backprop is done but has no effect",
then the in-derivative operand was the null view and the component's whole
property bitset was zero (the C++ tests `properties && kUpdatableComponent`
with a logical AND, so any nonzero bitset passes). -/
theorem backpropNoEffect_only_if (nnet : Nnet) (computation : NnetComputation)
    (c : Command) (htype : c.command_type = .kBackprop)
    (heq : checkCommandIndexes nnet computation c = .error .backpropNoEffect) :
    c.arg6 = 0 ∧ (GetComponentForNode nnet c.arg1).properties = 0 := by
  simp only [checkCommandIndexes, htype] at heq
  have e2 := ite_skip (by simp) heq
  have e3 := ite_skip (by simp) e2
  have e4 := ite_skip (by simp) e3
  have e5 := ite_skip (by simp) e4
  have e6 := ite_skip (by simp) e5
  have e7 := ite_skip (by simp) e6
  by_cases hc7 : c.arg6 = 0 ∧
      ¬((GetComponentForNode nnet c.arg1).properties ≠ 0 ∧ kUpdatableComponent ≠ 0)
  · refine ⟨hc7.1, ?_⟩
    by_cases hp : (GetComponentForNode nnet c.arg1).properties = 0
    · exact hp
    · exact absurd ⟨hp, by norm_num [kUpdatableComponent]⟩ hc7.2
  · rw [if_neg hc7] at e7
    have e8 := ite_skip (by simp) e7
    have e9 := ite_skip (by simp) e8
    have e10 := ite_skip (by simp) e9
    have e11 := ite_skip (by simp) e10
    have e12 := ite_skip (by simp) e11
    have e13 := ite_skip (by simp) e12
    have e14 := ite_skip (by simp) e13
    have e15 := ite_skip (by simp) e14
    exact absurd e15 (by simp)

/-- C10: for a Backprop command whose in-derivative operand (`arg6`) is the
null view, and whose other operands pass the preceding structural checks,
the bounds check raises "Backprop is done but has no effect" exactly when
the referenced component's property bitset is zero — a nonzero bitset
passes this particular check even when the updatable bit is clear, because
the C++ condition `!(properties && kUpdatableComponent)` uses a logical AND
over the whole bitset; concretely, a component whose only property is
simple-shape (updatable bit clear) passes the whole per-command check,
while an all-zero bitset triggers the error. -/
theorem backpropNoEffect_spec :
    (∀ (nnet : Nnet) (computation : NnetComputation) (c : Command),
       c.command_type = .kBackprop →
       ¬(c.arg1 < 0 ∨ c.arg1 ≥ (nnet.nodes.length : Int) ∨
         IsComponentNode nnet c.arg1 = false) →
       ¬(c.arg2 < 0 ∨ c.arg2 > (computation.component_precomputed_indexes : Int)) →
       ¬(c.arg3 < 0 ∨ c.arg3 ≥ (computation.submatrices.length : Int) ∨
         c.arg4 < 0 ∨ c.arg4 ≥ (computation.submatrices.length : Int) ∨
         c.arg5 < 1 ∨ c.arg5 ≥ (computation.submatrices.length : Int) ∨
         c.arg6 < 0 ∨ c.arg6 ≥ (computation.submatrices.length : Int)) →
       c.arg6 = 0 →
       (checkCommandIndexes nnet computation c = .error .backpropNoEffect ↔
         (GetComponentForNode nnet c.arg1).properties = 0)) ∧
    (∀ (nnet : Nnet) (computation : NnetComputation) (c : Command),
       c.command_type = .kBackprop →
       checkCommandIndexes nnet computation c = .error .backpropNoEffect →
       c.arg6 = 0 ∧ (GetComponentForNode nnet c.arg1).properties = 0) ∧
    (checkCommandIndexes exampleBackpropNnetSimple exampleRewriteComputation
       exampleBackpropCommand = .ok () ∧
     checkCommandIndexes exampleBackpropNnetZero exampleRewriteComputation
       exampleBackpropCommand = .error .backpropNoEffect) := by
  refine ⟨?_, backpropNoEffect_only_if, by decide, by decide⟩
  intro nnet computation c htype hnode harg2 hsub h6
  constructor
  · intro heq
    exact (backpropNoEffect_only_if nnet computation c htype heq).2
  · intro hprops
    simp only [checkCommandIndexes, htype]
    rw [if_neg hnode, if_neg harg2, hprops]
    rw [if_neg (by simp [kSimpleComponent])]
    rw [if_neg hsub]
    rw [if_neg (by simp [kBackpropNeedsInput])]
    rw [if_neg (by simp [kBackpropNeedsOutput])]
    rw [if_pos ⟨h6, by simp [kUpdatableComponent]⟩]

/-- Witness for C10: with the concrete all-zero-bitset component, the check
on the concrete null-in-derivative Backprop command reports exactly the
no-effect error. -/
theorem backpropNoEffect_spec_witness :
    checkCommandIndexes exampleBackpropNnetZero exampleRewriteComputation
      exampleBackpropCommand = .error .backpropNoEffect :=
  (backpropNoEffect_spec.1 exampleBackpropNnetZero exampleRewriteComputation
    exampleBackpropCommand rfl (by decide) (by decide) (by decide) rfl).mpr rfl

/-! ## Claim C1: region partitioner invariants -/

theorem mem_pushSplitPoints (m : Nat) (l : List SubMatrixInfo) (x : Nat) :
    x ∈ pushSplitPoints m l ↔
      ∃ s ∈ l, s.matrix_index = m ∧
        (x = s.col_offset ∨ x = s.col_offset + s.num_cols) := by
  induction l with
  | nil => simp [pushSplitPoints]
  | cons s rest ih =>
    by_cases hs : s.matrix_index = m
    · rw [pushSplitPoints, if_pos hs]
      simp only [List.mem_cons, ih]
      constructor
      · rintro (rfl | rfl | ⟨t, ht, htm, hx⟩)
        · exact ⟨s, Or.inl rfl, hs, Or.inl rfl⟩
        · exact ⟨s, Or.inl rfl, hs, Or.inr rfl⟩
        · exact ⟨t, Or.inr ht, htm, hx⟩
      · rintro ⟨t, (rfl | ht), htm, hx⟩
        · rcases hx with rfl | rfl
          · exact Or.inl rfl
          · exact Or.inr (Or.inl rfl)
        · exact Or.inr (Or.inr ⟨t, ht, htm, hx⟩)
    · rw [pushSplitPoints, if_neg hs]
      rw [ih]
      constructor
      · rintro ⟨t, ht, htm, hx⟩
        exact ⟨t, List.mem_cons_of_mem s ht, htm, hx⟩
      · rintro ⟨t, ht, htm, hx⟩
        rcases List.mem_cons.mp ht with rfl | ht2
        · exact absurd htm hs
        · exact ⟨t, ht2, htm, hx⟩

theorem mem_ComputeSplitPoints (computation : NnetComputation) (m : Nat) (x : Nat) :
    x ∈ ComputeSplitPoints computation m ↔
      ∃ s ∈ computation.submatrices.drop 1, s.matrix_index = m ∧
        (x = s.col_offset ∨ x = s.col_offset + s.num_cols) := by
  rw [ComputeSplitPoints, mem_sortAndUniq, mem_pushSplitPoints]

theorem two_mem_length {α : Type} {l : List α} {a b : α}
    (ha : a ∈ l) (hb : b ∈ l) (hab : a ≠ b) : 2 ≤ l.length := by
  match l with
  | [] => cases ha
  | [x] =>
    rw [List.mem_singleton] at ha hb
    exact absurd (ha.trans hb.symm) hab
  | x :: y :: t => simp

theorem getD_drop {α : Type} (l : List α) (d : α) :
    ∀ n m, (l.drop n).getD m d = l.getD (n + m) d := by
  induction l with
  | nil => intro n m; simp
  | cons x t ih =>
    intro n m
    cases n with
    | zero => simp
    | succ k =>
      rw [List.drop_succ_cons]
      rw [ih k m]
      rw [Nat.succ_add, List.getD_cons_succ]

theorem getD_mem_of_lt {α : Type} (l : List α) (d : α) (i : Nat)
    (h : i < l.length) : l.getD i d ∈ l := by
  induction l generalizing i with
  | nil => simp at h
  | cons x t ih =>
    cases i with
    | zero => simp
    | succ k =>
      rw [List.getD_cons_succ]
      exact List.mem_cons_of_mem x (ih k (by simpa using h))

theorem mem_getD_index {α : Type} [DecidableEq α] {l : List α} {x : α} (d : α)
    (hx : x ∈ l) : ∃ k, k < l.length ∧ l.getD k d = x := by
  induction l with
  | nil => cases hx
  | cons a t ih =>
    rcases List.mem_cons.mp hx with rfl | hx2
    · exact ⟨0, by simp, rfl⟩
    · obtain ⟨k, hk, hkd⟩ := ih hx2
      exact ⟨k + 1, by simpa using hk, by rwa [List.getD_cons_succ]⟩

theorem sorted_getD_lt {l : List Nat} (hs : l.Sorted (· < ·)) {i j : Nat}
    (hij : i < j) (hj : j < l.length) : l.getD i 0 < l.getD j 0 := by
  have hi : i < l.length := lt_trans hij hj
  rw [List.getD_eq_getElem l 0 hi, List.getD_eq_getElem l 0 hj]
  exact List.Sorted.get_strictMono hs (by simpa using hij)

/-- C1: under the partitioner's preconditions (every non-null view has
positive width and every non-null buffer is named by at least one view),
each buffer's boundary list is sorted, deduplicated and has at least two
points (hence at least one variable), and for every non-null view both
binary searches hit boundary points exactly — the C++ `KALDI_ASSERT`s — so
the view's half-open variable range, offset by the buffer's global base, is
non-empty and aligns the view with a run of whole variables. -/
theorem computeSplitPoints_spec (computation : NnetComputation)
    (hpos : ∀ s ∈ computation.submatrices.drop 1, 0 < s.num_cols)
    (hcover : ∀ m < computation.matrices.length, 1 ≤ m →
      ∃ s ∈ computation.submatrices.drop 1, s.matrix_index = m) :
    (∀ m < computation.matrices.length, 1 ≤ m →
      (ComputeSplitPoints computation m).Sorted (· < ·) ∧
      (ComputeSplitPoints computation m).Nodup ∧
      2 ≤ (ComputeSplitPoints computation m).length) ∧
    (∀ si < computation.submatrices.length, 1 ≤ si →
      ∃ i j,
        i = lowerBoundIdx
          (ComputeSplitPoints computation
            (computation.submatrices.getD si default).matrix_index)
          (computation.submatrices.getD si default).col_offset ∧
        j = i + lowerBoundIdx
          ((ComputeSplitPoints computation
            (computation.submatrices.getD si default).matrix_index).drop i)
          ((computation.submatrices.getD si default).col_offset +
            (computation.submatrices.getD si default).num_cols) ∧
        i < j ∧
        j < (ComputeSplitPoints computation
          (computation.submatrices.getD si default).matrix_index).length ∧
        (ComputeSplitPoints computation
          (computation.submatrices.getD si default).matrix_index).getD i 0 =
          (computation.submatrices.getD si default).col_offset ∧
        (ComputeSplitPoints computation
          (computation.submatrices.getD si default).matrix_index).getD j 0 =
          (computation.submatrices.getD si default).col_offset +
            (computation.submatrices.getD si default).num_cols ∧
        ComputeVariableRangesFor computation si =
          (matrixToVariableIndex computation
            (computation.submatrices.getD si default).matrix_index + i,
           matrixToVariableIndex computation
            (computation.submatrices.getD si default).matrix_index + j)) := by
  refine ⟨?_, ?_⟩
  · intro m hm hm1
    refine ⟨sortAndUniq_sorted_lt _, sortAndUniq_nodup _, ?_⟩
    obtain ⟨s, hsmem, hsm⟩ := hcover m hm hm1
    have h1 : s.col_offset ∈ ComputeSplitPoints computation m :=
      (mem_ComputeSplitPoints _ _ _).mpr ⟨s, hsmem, hsm, Or.inl rfl⟩
    have h2 : s.col_offset + s.num_cols ∈ ComputeSplitPoints computation m :=
      (mem_ComputeSplitPoints _ _ _).mpr ⟨s, hsmem, hsm, Or.inr rfl⟩
    have hsn := hpos s hsmem
    exact two_mem_length h1 h2 (by omega)
  · intro si hsi hsi1
    set s := computation.submatrices.getD si default with hsdef
    have hsmem : s ∈ computation.submatrices.drop 1 := by
      have hlen : si - 1 < (computation.submatrices.drop 1).length := by
        rw [List.length_drop]
        omega
      have heq : (computation.submatrices.drop 1).getD (si - 1) default = s := by
        rw [getD_drop]
        rw [hsdef]
        congr 1
        omega
      rw [← heq]
      exact getD_mem_of_lt _ _ _ hlen
    set SP := ComputeSplitPoints computation s.matrix_index with hSPdef
    have hsort : SP.Sorted (· < ·) := sortAndUniq_sorted_lt _
    have hstart_mem : s.col_offset ∈ SP :=
      (mem_ComputeSplitPoints _ _ _).mpr ⟨s, hsmem, rfl, Or.inl rfl⟩
    have hend_mem : s.col_offset + s.num_cols ∈ SP :=
      (mem_ComputeSplitPoints _ _ _).mpr ⟨s, hsmem, rfl, Or.inr rfl⟩
    obtain ⟨hIlt, hIval⟩ := lowerBoundIdx_hit SP s.col_offset hsort hstart_mem
    set I := lowerBoundIdx SP s.col_offset with hIdef
    have hdropsorted : (SP.drop I).Sorted (· < ·) :=
      List.Pairwise.sublist (List.drop_sublist _ _) hsort
    obtain ⟨k, hk, hkval⟩ := mem_getD_index 0 hend_mem
    have hkI : I ≤ k := by
      by_contra hki
      push_neg at hki
      have hlt := sorted_getD_lt hsort hki hIlt
      rw [hkval, hIval] at hlt
      omega
    have hend_drop : s.col_offset + s.num_cols ∈ SP.drop I := by
      have hvd : (SP.drop I).getD (k - I) 0 = s.col_offset + s.num_cols := by
        rw [getD_drop]
        rw [show I + (k - I) = k by omega]
        exact hkval
      rw [← hvd]
      apply getD_mem_of_lt
      rw [List.length_drop]
      omega
    obtain ⟨hLlt, hLval⟩ :=
      lowerBoundIdx_hit (SP.drop I) (s.col_offset + s.num_cols) hdropsorted hend_drop
    set L := lowerBoundIdx (SP.drop I) (s.col_offset + s.num_cols) with hLdef
    have hL1 : 1 ≤ L := by
      cases hd : SP.drop I with
      | nil =>
        rw [hd] at hLlt
        simp at hLlt
      | cons a rest =>
        have ha : a = SP.getD I 0 := by
          have hgd := getD_drop SP 0 I 0
          rw [hd] at hgd
          simpa using hgd
        have hapos : a < s.col_offset + s.num_cols := by
          rw [ha, hIval]
          have := hpos s hsmem
          omega
        rw [hLdef, hd, lowerBoundIdx, if_pos hapos]
        omega
    have hJlen : I + L < SP.length := by
      rw [List.length_drop] at hLlt
      omega
    have hJval : SP.getD (I + L) 0 = s.col_offset + s.num_cols := by
      rw [← getD_drop SP 0 I L]
      exact hLval
    refine ⟨I, I + L, rfl, rfl, by omega, hJlen, hIval, hJval, ?_⟩
    simp only [ComputeVariableRangesFor, if_neg (by omega : ¬si = 0)]

/-- Witness for C1: on the concrete two-buffer program, buffer 1's boundary
list is sorted, deduplicated, and has at least two points. -/
theorem computeSplitPoints_spec_witness :
    (ComputeSplitPoints exampleRewriteComputation 1).Sorted (· < ·) ∧
    (ComputeSplitPoints exampleRewriteComputation 1).Nodup ∧
    2 ≤ (ComputeSplitPoints exampleRewriteComputation 1).length :=
  (computeSplitPoints_spec exampleRewriteComputation (by decide) (by decide)).1
    1 (by decide) (by decide)

/-! ## Claim C7: rewrite-safety check and its configuration flag -/

theorem rewriteScan_iff (l : List Access) :
    (((l.dropWhile (fun acc => decide (acc.access_type ≠ .kReadAccess))).drop 1).any
        (fun acc => decide (acc.access_type ≠ .kReadAccess)) = true) ↔
      ∃ i j, i < j ∧ j < l.length ∧
        (l.getD i default).access_type = .kReadAccess ∧
        (l.getD j default).access_type ≠ .kReadAccess := by
  induction l with
  | nil => simp
  | cons a t ih =>
    by_cases ha : a.access_type = .kReadAccess
    · rw [List.dropWhile_cons, if_neg (by simp [ha])]
      rw [List.drop_one, List.tail_cons]
      constructor
      · intro hany
        obtain ⟨x, hx, hpx⟩ := List.any_eq_true.mp hany
        obtain ⟨k, hk, hkd⟩ := mem_getD_index default hx
        refine ⟨0, k + 1, by omega, by simpa using hk, by simpa using ha, ?_⟩
        rw [List.getD_cons_succ, hkd]
        exact of_decide_eq_true hpx
      · rintro ⟨i, j, hij, hj, hir, hjw⟩
        have hj1 : 1 ≤ j := by omega
        apply List.any_eq_true.mpr
        refine ⟨t.getD (j - 1) default, ?_, ?_⟩
        · apply getD_mem_of_lt
          simp only [List.length_cons] at hj
          omega
        · rw [show j = (j - 1) + 1 by omega, List.getD_cons_succ] at hjw
          exact decide_eq_true hjw
    · rw [List.dropWhile_cons, if_pos (by simp [ha])]
      rw [ih]
      constructor
      · rintro ⟨i, j, hij, hj, hir, hjw⟩
        refine ⟨i + 1, j + 1, by omega, by simpa using Nat.succ_lt_succ hj, ?_, ?_⟩
        · rwa [List.getD_cons_succ]
        · rwa [List.getD_cons_succ]
      · rintro ⟨i, j, hij, hj, hir, hjw⟩
        cases i with
        | zero =>
          rw [List.getD_cons_zero] at hir
          exact absurd hir ha
        | succ i2 =>
          cases j with
          | zero => omega
          | succ j2 =>
            rw [List.getD_cons_succ] at hir hjw
            refine ⟨i2, j2, by omega, ?_, hir, hjw⟩
            simp only [List.length_cons] at hj
            omega

/-- Per-variable characterization of the rewrite-safety body. -/
theorem checkVariableRewrite_ok_iff (a : Analyzer) (v : Nat) :
    checkVariableRewrite a v = .ok () ↔
      ((a.variable_accesses.getD v [] = [] →
        (a.matrix_accesses.getD (GetMatrixForVariable a.variables_ v).toNat
          emptyMatrixAccesses).is_input = true) ∧
       ¬∃ i j, i < j ∧ j < (a.variable_accesses.getD v []).length ∧
         ((a.variable_accesses.getD v []).getD i default).access_type =
           .kReadAccess ∧
         ((a.variable_accesses.getD v []).getD j default).access_type ≠
           .kReadAccess) := by
  unfold checkVariableRewrite
  by_cases hc1 : a.variable_accesses.getD v [] = [] ∧
      (a.matrix_accesses.getD (GetMatrixForVariable a.variables_ v).toNat
        emptyMatrixAccesses).is_input = false
  · rw [if_pos hc1]
    refine iff_of_false (by simp) ?_
    rintro ⟨h1, -⟩
    rw [h1 hc1.1] at hc1
    cases hc1.2
  · rw [if_neg hc1]
    by_cases hc2 : (((a.variable_accesses.getD v []).dropWhile
        (fun acc => decide (acc.access_type ≠ .kReadAccess))).drop 1).any
        (fun acc => decide (acc.access_type ≠ .kReadAccess)) = true
    · rw [if_pos hc2]
      refine iff_of_false (by simp) ?_
      rintro ⟨-, h2⟩
      exact h2 ((rewriteScan_iff _).mp hc2)
    · rw [if_neg hc2]
      refine iff_of_true rfl ⟨?_, ?_⟩
      · intro hemp
        by_cases hin : (a.matrix_accesses.getD
            (GetMatrixForVariable a.variables_ v).toNat
            emptyMatrixAccesses).is_input = true
        · exact hin
        · exact absurd ⟨hemp, by simpa using hin⟩ hc1
      · intro hex
        exact hc2 ((rewriteScan_iff _).mpr hex)

/-- Characterization of the whole rewrite-safety check. -/
theorem checkComputationRewrite_ok_iff (a : Analyzer) :
    checkComputationRewrite a = .ok () ↔
      ∀ v < a.variable_accesses.length,
        ((a.variable_accesses.getD v [] = [] →
          (a.matrix_accesses.getD (GetMatrixForVariable a.variables_ v).toNat
            emptyMatrixAccesses).is_input = true) ∧
         ¬∃ i j, i < j ∧ j < (a.variable_accesses.getD v []).length ∧
           ((a.variable_accesses.getD v []).getD i default).access_type =
             .kReadAccess ∧
           ((a.variable_accesses.getD v []).getD j default).access_type ≠
             .kReadAccess) := by
  unfold checkComputationRewrite
  rw [checkAll_ok_iff]
  constructor
  · intro h v hv
    exact (checkVariableRewrite_ok_iff a v).mp (h v (List.mem_range.mpr hv))
  · intro h v hv
    exact (checkVariableRewrite_ok_iff a v).mpr (h v (List.mem_range.mp hv))

/-- Characterization of `ComputationChecker::Check`: the structural check,
the analysis pipeline, and the order / lifecycle / undefined-use checks
always run, and the rewrite-safety check is consulted exactly when the
configuration flag is set. -/
theorem check_pipeline_iff (config : CheckComputationOptions) (nnet : Nnet)
    (computation : NnetComputation) :
    ComputationCheckerCheck config nnet computation = .ok () ↔
      (checkComputationIndexes nnet computation = .ok () ∧
       ∃ a, AnalyzerInit nnet computation = .ok a ∧
         checkComputationOrder computation = .ok () ∧
         checkComputationMatrixAccesses a.matrix_accesses = .ok () ∧
         checkComputationUndefined a = .ok () ∧
         (config.check_rewrite = true → checkComputationRewrite a = .ok ())) := by
  unfold ComputationCheckerCheck
  cases h1 : checkComputationIndexes nnet computation with
  | error e => simp [h1, Bind.bind, Except.bind]
  | ok u1 =>
    cases u1
    cases h2 : AnalyzerInit nnet computation with
    | error e => simp [h1, h2, Bind.bind, Except.bind]
    | ok a =>
      cases h3 : checkComputationOrder computation with
      | error e => simp [h1, h2, h3, Bind.bind, Except.bind]
      | ok u3 =>
        cases u3
        cases h4 : checkComputationMatrixAccesses a.matrix_accesses with
        | error e => simp [h1, h2, h3, h4, Bind.bind, Except.bind]
        | ok u4 =>
          cases u4
          cases h5 : checkComputationUndefined a with
          | error e => simp [h1, h2, h3, h4, h5, Bind.bind, Except.bind]
          | ok u5 =>
            cases u5
            cases hflag : config.check_rewrite with
            | false =>
              simp [h1, h2, h3, h4, h5, hflag, Bind.bind, Except.bind,
                Pure.pure, Except.pure]
            | true =>
              simp [h1, h2, h3, h4, h5, hflag, Bind.bind, Except.bind,
                Pure.pure, Except.pure]

/-- C7: the rewrite-safety check passes a variable exactly when it is not an
unaccessed variable of a non-input buffer and its history has no pure-Read
access followed, at any later position, by a Write or ReadWrite access (so
a variable read and never touched again passes); the check runs inside
`Check` only when the configuration flag is set, the other four checks
always running — concretely, a program whose only violation is a
read-then-overwrite passes with the flag cleared and fails with the flag
set. -/
theorem rewriteCheck_spec :
    (∀ a : Analyzer, checkComputationRewrite a = .ok () ↔
      ∀ v < a.variable_accesses.length,
        ((a.variable_accesses.getD v [] = [] →
          (a.matrix_accesses.getD (GetMatrixForVariable a.variables_ v).toNat
            emptyMatrixAccesses).is_input = true) ∧
         ¬∃ i j, i < j ∧ j < (a.variable_accesses.getD v []).length ∧
           ((a.variable_accesses.getD v []).getD i default).access_type =
             .kReadAccess ∧
           ((a.variable_accesses.getD v []).getD j default).access_type ≠
             .kReadAccess)) ∧
    (∀ (config : CheckComputationOptions) (nnet : Nnet)
       (computation : NnetComputation),
      ComputationCheckerCheck config nnet computation = .ok () ↔
        (checkComputationIndexes nnet computation = .ok () ∧
         ∃ a, AnalyzerInit nnet computation = .ok a ∧
           checkComputationOrder computation = .ok () ∧
           checkComputationMatrixAccesses a.matrix_accesses = .ok () ∧
           checkComputationUndefined a = .ok () ∧
           (config.check_rewrite = true → checkComputationRewrite a = .ok ()))) ∧
    (ComputationCheckerCheck ⟨true⟩ emptyNnet exampleRewriteComputation =
       .error .variableRewritten ∧
     ComputationCheckerCheck ⟨false⟩ emptyNnet exampleRewriteComputation =
       .ok ()) :=
  ⟨checkComputationRewrite_ok_iff, check_pipeline_iff, by decide, by decide⟩
